import Mathlib

/-!
Verification of the analytics backend's upload/metric pipeline against its
specification.  The Python sources under `backend/app` are shallowly embedded:
pure helpers (`parse_float`, `parse_date`, operation-type inference, metric
availability, deltas) become Lean functions on `String`/`List Char`/`ℚ`; the
row-quality engine and the import-time deduplication become explicit folds
over row lists; SQL aggregation in `compute_metric` becomes list aggregation
over an explicit fact-row type.  Machine floats are modelled by `ℚ` (all
arithmetic involved is addition/subtraction/division of parsed decimals).
-/

namespace Analytics

/-! ## Character and string primitives shared by the parsers

`parse_float` / `parse_date` (backend/app/services/upload_pipeline.py) operate
on Python `str`; we model the string branch on `List Char`.
-/

/-- Python's `str.strip()`: drop leading and trailing whitespace. -/
def pyStrip (l : List Char) : List Char :=
  ((l.dropWhile Char.isWhitespace).reverse.dropWhile Char.isWhitespace).reverse

/-- Split a character list on a separator character.  Mirrors how Python's
`strptime` consumes a `%d.%m.%Y`-style pattern: the literal separators cut the
input into fields.  `splitSep sep l` always returns a nonempty list and the
concatenation of the pieces interleaved with `sep` is `l`. -/
def splitSep (sep : Char) : List Char → List (List Char)
  | [] => [[]]
  | c :: rest =>
    let r := splitSep sep rest
    if c = sep then [] :: r else (c :: r.headD []) :: r.tail

/-- Numeric value of a big-endian list of decimal digit characters. -/
def digitsVal (l : List Char) : ℕ :=
  l.foldl (fun acc c => 10 * acc + (c.toNat - 48)) 0

/-- Zero-padded `k`-digit decimal rendering of `n` (the canonical way the
locale date formats write a two-digit day/month and four-digit year). -/
def padNum : ℕ → ℕ → List Char
  | 0, _ => []
  | k + 1, n => Char.ofNat (48 + n / 10 ^ k % 10) :: padNum k n

/-- Decidable check that a character is an ASCII decimal digit, matching
Python's regex class on the inputs of interest. -/
def isDigitChar (c : Char) : Bool := 48 ≤ c.toNat && c.toNat ≤ 57

/-! ## parse_float (upload_pipeline.py, lines 129-146)

```python
def parse_float(value):
    if value in (None, ""): return None
    if isinstance(value, (int, float)) ...: return float(value)
    if isinstance(value, str):
        cleaned = value.replace(" ", " ").strip()
        cleaned = cleaned.replace(" ", "")
        cleaned = re.sub(r"[^\d,.\-]", "", cleaned)
        if "," in cleaned and "." in cleaned:
            cleaned = cleaned.replace(",", "")
        else:
            cleaned = cleaned.replace(",", ".")
        try: return float(cleaned)
        except ValueError: return None
    return None
```
We embed the string branch.  After the `re.sub` the residual consists only of
digits, `,`, `.` and `-`, so the final `float(...)` call is modelled by
`pyFloat`, Python's float grammar restricted to that alphabet: an optional
sign, then digits with at most one decimal point and at least one digit
(exponents/inf/nan are impossible because their letters were stripped).
-/

/-- The non-breaking space replaced by a regular space in `parse_float`. -/
def nbsp : Char := Char.ofNat 160

/-- Python `float(s)` on strings drawn from the alphabet digits/`.`/`-`/`+`:
optional sign, at most one `.`, at least one digit, nothing else. -/
def pyFloat (l : List Char) : Option ℚ :=
  let signRest : Bool × List Char :=
    match l with
    | '-' :: r => (true, r)
    | '+' :: r => (false, r)
    | r => (false, r)
  let rest := signRest.2
  let value? : Option ℚ :=
    match splitSep '.' rest with
    | [a] =>
      if a ≠ [] ∧ a.all isDigitChar then some ((digitsVal a : ℚ)) else none
    | [a, b] =>
      if (a ++ b) ≠ [] ∧ (a ++ b).all isDigitChar then
        some ((digitsVal a : ℚ) + (digitsVal b : ℚ) / (10 : ℚ) ^ b.length)
      else none
    | _ => none
  value?.map fun v => if signRest.1 then -v else v

/-- The cleaning pipeline of `parse_float` before the comma decision:
non-breaking spaces to spaces, strip, drop spaces, keep only digits `,.-`. -/
def cleanedAmount (l : List Char) : List Char :=
  let l1 := l.map fun c => if c = nbsp then ' ' else c
  let l2 := pyStrip l1
  let l3 := l2.filter fun c => c ≠ ' '
  l3.filter fun c => isDigitChar c || c = ',' || c = '.' || c = '-'

/-- Embedding of `parse_float` on the string branch. -/
def parse_float (s : String) : Option ℚ :=
  if s = "" then none
  else
    let cleaned := cleanedAmount s.data
    let cleaned2 :=
      if (',' ∈ cleaned) ∧ ('.' ∈ cleaned) then cleaned.filter fun c => c ≠ ','
      else cleaned.map fun c => if c = ',' then '.' else c
    pyFloat cleaned2

/-! ## parse_date (upload_pipeline.py, lines 13-25 and 108-126)

`parse_date` strips the string, first tries `datetime.fromisoformat`, then the
entries of `DATE_FORMATS` in order, returning `None` when nothing matches (it
never raises).  `DATE_FORMATS` holds six date-only formats
(`%Y-%m-%d`, `%d.%m.%Y`, `%d/%m/%Y`, `%Y/%m/%d`, `%Y.%m.%d`, `%d-%m-%Y`)
interleaved with five datetime formats (`%Y-%m-%d %H:%M:%S`, `%Y-%m-%d %H:%M`,
`%Y-%m-%dT%H:%M:%S`, `%Y-%m-%dT%H:%M`, `%Y-%m-%dT%H:%M:%S.%f`); all five
datetime formats are modelled by `parseYMDDateTime` below.  `strptime` lets a
`%d`/`%m` field consume one or two digits and a `%Y` field up to four digits,
and validates the result against the real (Gregorian, proleptic) calendar;
`fromisoformat` on a date string demands the zero-padded `YYYY-MM-DD` shape.
-/

/-- A calendar date as Python's `datetime.date`: year 1..9999, real months
and day-of-month bounds with Gregorian leap years. -/
structure Date where
  year : ℕ
  month : ℕ
  day : ℕ
  deriving DecidableEq, Repr

/-- Gregorian leap-year rule used by Python's calendar validation. -/
def isLeapYear (y : ℕ) : Bool :=
  y % 4 = 0 && (y % 100 ≠ 0 || y % 400 = 0)

/-- Number of days in a month of a given year. -/
def daysInMonth (y m : ℕ) : ℕ :=
  if m = 2 then (if isLeapYear y then 29 else 28)
  else if m = 4 ∨ m = 6 ∨ m = 9 ∨ m = 11 then 30
  else 31

/-- The dates `datetime.date(y, m, d)` accepts. -/
def validDate (y m d : ℕ) : Bool :=
  1 ≤ y && y ≤ 9999 && 1 ≤ m && m ≤ 12 && 1 ≤ d && d ≤ daysInMonth y m

/-- A `strptime`-style numeric field: between `lo` and `hi` digit characters,
returning its value. -/
def fieldVal? (lo hi : ℕ) (l : List Char) : Option ℕ :=
  if lo ≤ l.length ∧ l.length ≤ hi ∧ l.all isDigitChar then some (digitsVal l)
  else none

/-- Checked construction of a date from year/month/day values. -/
def mkDate? (y? m? d? : Option ℕ) : Option Date :=
  match y?, m?, d? with
  | some y, some m, some d => if validDate y m d then some ⟨y, m, d⟩ else none
  | _, _, _ => none

/-- `strptime` with pattern day-sep-month-sep-year (`%d.%m.%Y` family). -/
def parseDMY (sep : Char) (l : List Char) : Option Date :=
  match splitSep sep l with
  | [d, m, y] => mkDate? (fieldVal? 1 4 y) (fieldVal? 1 2 m) (fieldVal? 1 2 d)
  | _ => none

/-- `strptime` with pattern year-sep-month-sep-day (`%Y-%m-%d` family). -/
def parseYMD (sep : Char) (l : List Char) : Option Date :=
  match splitSep sep l with
  | [y, m, d] => mkDate? (fieldVal? 1 4 y) (fieldVal? 1 2 m) (fieldVal? 1 2 d)
  | _ => none

/-- A `%H:%M` / `%H:%M:%S` / `%H:%M:%S.%f` time-of-day field. -/
def validTime (l : List Char) : Bool :=
  match splitSep ':' l with
  | [h, m] =>
    (fieldVal? 1 2 h).any (· < 24) && (fieldVal? 1 2 m).any (· < 60)
  | [h, m, s] =>
    (fieldVal? 1 2 h).any (· < 24) && (fieldVal? 1 2 m).any (· < 60) &&
      (match splitSep '.' s with
       | [sec] => (fieldVal? 1 2 sec).any (· < 62)
       | [sec, frac] =>
         (fieldVal? 1 2 sec).any (· < 62) && (fieldVal? 1 6 frac).isSome
       | _ => false)
  | _ => false

/-- One datetime shape: a `%Y-%m-%d` date, the given separator, then a time
of day; `.date()` is taken from the result. -/
def parseYMDTimeSep (sep : Char) (l : List Char) : Option Date :=
  match splitSep sep l with
  | [d, t] => if validTime t then parseYMD '-' d else none
  | _ => none

/-- The five datetime entries of `DATE_FORMATS`: separator `\x20` or `T`. -/
def parseYMDDateTime (l : List Char) : Option Date :=
  (parseYMDTimeSep ' ' l).orElse fun _ => parseYMDTimeSep 'T' l

/-- `datetime.fromisoformat` restricted to date strings: the zero-padded
`YYYY-MM-DD` shape (field widths exactly 4, 2 and 2). -/
def parseISO (l : List Char) : Option Date :=
  match splitSep '-' l with
  | [y, m, d] => mkDate? (fieldVal? 4 4 y) (fieldVal? 2 2 m) (fieldVal? 2 2 d)
  | _ => none

/-- Embedding of `parse_date` on the string branch: strip, try ISO, then the
`DATE_FORMATS` entries in their source order. -/
def parse_date (s : String) : Option Date :=
  if s = "" then none
  else
    let cleaned := pyStrip s.data
    (parseISO cleaned).orElse fun _ =>
    (parseYMD '-' cleaned).orElse fun _ =>
    (parseYMDDateTime cleaned).orElse fun _ =>
    (parseDMY '.' cleaned).orElse fun _ =>
    (parseDMY '/' cleaned).orElse fun _ =>
    (parseYMD '/' cleaned).orElse fun _ =>
    (parseYMD '.' cleaned).orElse fun _ =>
    parseDMY '-' cleaned

/-- Render a date in one of the six locale formats: two-digit day and month,
four-digit year, in the given component order. -/
def renderYMD (sep : Char) (y m d : ℕ) : String :=
  ⟨padNum 4 y ++ sep :: (padNum 2 m ++ sep :: padNum 2 d)⟩

/-- Render day-first: `DD sep MM sep YYYY`. -/
def renderDMY (sep : Char) (y m d : ℕ) : String :=
  ⟨padNum 2 d ++ sep :: (padNum 2 m ++ sep :: padNum 4 y)⟩

/-! ## Quality/Quarantine engine (backend/app/api/routes/mappings.py)

`_build_quality_report` walks the source rows (1-indexed from the header, so
data rows start at index 2).  For each transaction row it checks the required
fields `paid_at`, `operation_type`, `amount` (on their normalized values),
warns on a repeated `transaction_id`/`order_id` key, parses the date and the
amount from the raw cell, resolves the operation type, and parses the three
fee columns.  A `RowInput` models one source row after column mapping: for
each mapped field the raw cell and its `normalize_value` image, exactly the
`row_payload[field] = (raw, normalized)` pairs the code builds (an unmapped
column appears as empty strings, matching `payload.get(...) -> ""`).

One divergence noted for fidelity: the duplicate-key warning's field label in
the code tests dict-key presence of `transaction_id` (i.e. whether the column
was mapped); here it tests non-emptiness.  No claim depends on that label.
-/

/-- Issue severity, `level` in the code's issue dicts. -/
inductive IssueLevel
  | error
  | warning
  deriving DecidableEq, Repr

/-- One quality issue as appended to `errors` / `warnings` / `row_issues`. -/
structure Issue where
  level : IssueLevel
  row : ℕ
  fieldName : String
  message : String
  deriving DecidableEq, Repr

/-- Python `str.lower()` restricted to ASCII and Cyrillic letters — the only
alphabets occurring in the operation/payment marker lists. -/
def pyLowerChar (c : Char) : Char :=
  if 'A' ≤ c ∧ c ≤ 'Z' then Char.ofNat (c.toNat + 32)
  else if 0x410 ≤ c.toNat ∧ c.toNat ≤ 0x42F then Char.ofNat (c.toNat + 0x20)
  else if c.toNat = 0x401 then Char.ofNat 0x451
  else c

/-- Lowercase a character list. -/
def pyLower (l : List Char) : List Char := l.map pyLowerChar

/-- `_normalize_operation_value`: stringify, strip, lowercase. -/
def normalizeOperationValue (s : String) : String :=
  ⟨pyLower (pyStrip s.data)⟩

/-- Substring containment, Python's `needle in haystack`. -/
def listContains (needle : List Char) : List Char → Bool
  | [] => needle.isEmpty
  | c :: rest => needle.isPrefixOf (c :: rest) || listContains needle rest

/-- The sale marker words of `_infer_operation_from_payment_type`. -/
def saleMarkers : List String :=
  ["оплата", "приход", "поступление", "пополнение", "прибыль", "выплата",
   "оплачено"]

/-- The refund marker words of `_infer_operation_from_payment_type`. -/
def refundMarkers : List String :=
  ["возврат", "возвращено", "отклонено", "отмена"]

/-- `_infer_operation_from_payment_type`: strip+lowercase, empty gives
nothing, refund markers are checked before sale markers. -/
def inferOperationFromPaymentType (value : String) : Option String :=
  let normalized := pyLower (pyStrip value.data)
  if normalized.isEmpty then none
  else if refundMarkers.any fun mk => listContains mk.data normalized then
    some "refund"
  else if saleMarkers.any fun mk => listContains mk.data normalized then
    some "sale"
  else none

/-- Python `dict.get` over an association list (the value-remap table). -/
def assocLookup (table : List (String × String)) (k : String) : Option String :=
  (table.find? fun p => p.1 = k).map Prod.snd

/-- The resolution steps applied to the normalized operation value itself:
(a) the explicit value-remap table, (b) the literals `sale`/`refund`,
(c) keyword inference on the operation text. -/
def resolveFromOperation (remap : List (String × String))
    (operationValue : String) : Option String :=
  if operationValue = "" then none
  else
    let mapped := (assocLookup remap operationValue).getD ""
    if mapped ≠ "" then some mapped
    else if operationValue = "sale" ∨ operationValue = "refund" then
      some operationValue
    else inferOperationFromPaymentType operationValue

/-- Full operation-type resolution for a row: steps (a)-(c) on the operation
value, then (d) keyword inference on the payment-method field. -/
def resolveOperation (remap : List (String × String))
    (opNormalized payNormalized : String) : Option String :=
  match resolveFromOperation remap (normalizeOperationValue opNormalized) with
  | some r => some r
  | none => inferOperationFromPaymentType payNormalized

/-- `_parse_fee_value`: a parse failure on a non-blank cell flags a warning
and contributes 0. -/
def parseFeeValue (raw : String) : ℚ × Bool :=
  match parse_float raw with
  | none => if pyStrip raw.data = [] then (0, false) else (0, true)
  | some v => (v, false)

/-- One source row after column mapping: raw cell and normalized value per
target field (empty strings for unmapped columns). -/
structure RowInput where
  paidAtRaw : String := ""
  paidAtNorm : String := ""
  operationNorm : String := ""
  paymentNorm : String := ""
  amountRaw : String := ""
  amountNorm : String := ""
  transactionIdNorm : String := ""
  orderIdNorm : String := ""
  fee1Raw : String := ""
  fee2Raw : String := ""
  fee3Raw : String := ""
  deriving DecidableEq, Repr

/-- The `parsed_payload` of one processed row; `paid_at`, `amount`,
`operation_type` and `fee_total` are only set when the row survived. -/
structure ParsedRow where
  paidAt : Option Date := none
  amount : Option ℚ := none
  operationType : Option String := none
  fee1 : ℚ := 0
  fee2 : ℚ := 0
  fee3 : ℚ := 0
  feeTotal : Option ℚ := none
  deriving DecidableEq, Repr

/-- One entry of `processed_rows`: the payload, the parse results, the issue
list, and the error/skip flags. -/
structure RowResult where
  rowIndex : ℕ := 2
  row : RowInput := {}
  parsed : ParsedRow := {}
  issues : List Issue := []
  hasError : Bool := false
  rowSkip : Bool := false
  deriving DecidableEq, Repr

/-- The required-field loop: `paid_at`, `operation_type`, `amount` must have
a non-empty normalized value. -/
def requiredIssues (rowIndex : ℕ) (row : RowInput) : List Issue :=
  (if row.paidAtNorm = "" then
    [⟨.error, rowIndex, "paid_at", "Поле обязательно для заполнения."⟩]
   else []) ++
  (if row.operationNorm = "" then
    [⟨.error, rowIndex, "operation_type", "Поле обязательно для заполнения."⟩]
   else []) ++
  (if row.amountNorm = "" then
    [⟨.error, rowIndex, "amount", "Поле обязательно для заполнения."⟩]
   else [])

/-- The in-batch duplicate check on `transaction_id`-else-`order_id`,
returning a possible warning and the updated seen set. -/
def dupCheck (rowIndex : ℕ) (seen : List String) (row : RowInput) :
    List Issue × List String :=
  let transactionKey :=
    if row.transactionIdNorm ≠ "" then row.transactionIdNorm
    else row.orderIdNorm
  let dupField :=
    if row.transactionIdNorm ≠ "" then "transaction_id" else "order_id"
  if transactionKey ≠ "" then
    if transactionKey ∈ seen then
      ([⟨.warning, rowIndex, dupField,
          "Повторяющийся transaction_id/order_id."⟩], seen)
    else ([], transactionKey :: seen)
  else ([], seen)

/-- The amount rule: parse failure or zero is an error; a negative value is
replaced by its absolute value with a warning. -/
def amountCheck (rowIndex : ℕ) (raw : String) : Option ℚ × List Issue :=
  match parse_float raw with
  | none =>
    (none, [⟨.error, rowIndex, "amount", "Сумма должна быть больше 0."⟩])
  | some a =>
    if a = 0 then
      (none, [⟨.error, rowIndex, "amount", "Сумма должна быть больше 0."⟩])
    else if a < 0 then
      (some (-a),
       [⟨.warning, rowIndex, "amount", "Отрицательная сумма, используем модуль."⟩])
    else (some a, [])

/-- The unresolved-operation policy: `ignore` warns and skips the row,
anything else records an error. -/
def operationCheck (policy : String) (rowIndex : ℕ)
    (resolved : Option String) : List Issue × Bool × Bool :=
  match resolved with
  | some _ => ([], false, false)
  | none =>
    if policy = "ignore" then
      ([⟨.warning, rowIndex, "operation_type",
          "Тип операции не распознан. Строка пропущена."⟩], false, true)
    else
      ([⟨.error, rowIndex, "operation_type",
          "Тип операции должен быть sale или refund."⟩], true, false)

/-- Warnings from the three fee columns. -/
def feeIssues (rowIndex : ℕ) (row : RowInput) : List Issue :=
  (if (parseFeeValue row.fee1Raw).2 then
    [⟨.warning, rowIndex, "fee_1", "Комиссия не распознана, использовано 0."⟩]
   else []) ++
  (if (parseFeeValue row.fee2Raw).2 then
    [⟨.warning, rowIndex, "fee_2", "Комиссия не распознана, использовано 0."⟩]
   else []) ++
  (if (parseFeeValue row.fee3Raw).2 then
    [⟨.warning, rowIndex, "fee_3", "Комиссия не распознана, использовано 0."⟩]
   else [])

/-- `fee_total`, accumulated from 0.0 over the three parsed fees. -/
def rowFeeTotal (row : RowInput) : ℚ :=
  0 + (parseFeeValue row.fee1Raw).1 + (parseFeeValue row.fee2Raw).1 +
    (parseFeeValue row.fee3Raw).1

/-- `row_has_error`: any required-field, date, amount or operation error. -/
def rowHasError (remap : List (String × String)) (policy : String)
    (rowIndex : ℕ) (row : RowInput) : Bool :=
  !(requiredIssues rowIndex row).isEmpty ||
  (parse_date row.paidAtRaw).isNone ||
  ((amountCheck rowIndex row.amountRaw).1).isNone ||
  ((operationCheck policy rowIndex
      (resolveOperation remap row.operationNorm row.paymentNorm)).2).1

/-- `row_skip`: the row was skipped by the unknown-operation policy. -/
def rowSkipFlag (remap : List (String × String)) (policy : String)
    (rowIndex : ℕ) (row : RowInput) : Bool :=
  ((operationCheck policy rowIndex
      (resolveOperation remap row.operationNorm row.paymentNorm)).2).2

/-- The `parsed_payload`: fees always; date, amount, operation type and
`fee_total` only when the row has no error and is not skipped. -/
def rowParsed (remap : List (String × String)) (policy : String)
    (rowIndex : ℕ) (row : RowInput) : ParsedRow :=
  let base : ParsedRow :=
    { fee1 := (parseFeeValue row.fee1Raw).1
      fee2 := (parseFeeValue row.fee2Raw).1
      fee3 := (parseFeeValue row.fee3Raw).1 }
  if rowHasError remap policy rowIndex row = false ∧
      rowSkipFlag remap policy rowIndex row = false then
    { base with
      paidAt := parse_date row.paidAtRaw
      amount := (amountCheck rowIndex row.amountRaw).1
      operationType := resolveOperation remap row.operationNorm row.paymentNorm
      feeTotal := some (rowFeeTotal row) }
  else base

/-- The transaction branch of `_build_quality_report` for a single row,
threading the `seen_transactions` set. -/
def processTransactionRow (remap : List (String × String)) (policy : String)
    (rowIndex : ℕ) (seen : List String) (row : RowInput) :
    RowResult × List String :=
  (⟨rowIndex, row, rowParsed remap policy rowIndex row,
    requiredIssues rowIndex row ++ (dupCheck rowIndex seen row).1 ++
      (if (parse_date row.paidAtRaw).isNone then
        [⟨.error, rowIndex, "paid_at", "Дата платежа не распознана."⟩]
       else []) ++
      (amountCheck rowIndex row.amountRaw).2 ++
      (operationCheck policy rowIndex
        (resolveOperation remap row.operationNorm row.paymentNorm)).1 ++
      feeIssues rowIndex row,
    rowHasError remap policy rowIndex row,
    rowSkipFlag remap policy rowIndex row⟩,
   (dupCheck rowIndex seen row).2)

/-- Fold of `_build_quality_report` over the rows of a transactions upload,
starting at source row index 2 with an empty seen-keys set. -/
def processRows (remap : List (String × String)) (policy : String) :
    ℕ → List String → List RowInput → List RowResult
  | _, _, [] => []
  | idx, seen, r :: rest =>
    let step := processTransactionRow remap policy idx seen r
    step.1 :: processRows remap policy (idx + 1) step.2 rest

/-- All processed rows of an upload. -/
def buildQualityReport (remap : List (String × String)) (policy : String)
    (rows : List RowInput) : List RowResult :=
  processRows remap policy 2 [] rows

/-- Aggregated issue count at a severity across the report. -/
def countIssues (lvl : IssueLevel) (results : List RowResult) : ℕ :=
  (results.map fun r => (r.issues.filter fun i => i.level = lvl).length).sum

/-- The `stats` block of the quality report. -/
structure QualityStats where
  totalRows : ℤ
  validRows : ℤ
  errorCount : ℤ
  warningCount : ℤ
  skippedRows : ℤ
  deriving DecidableEq, Repr

/-- `total_rows`, `valid_rows = total - error_rows - skipped`, issue counts,
and `skipped_rows` (a row is skipped when flagged skip without error). -/
def qualityStats (results : List RowResult) : QualityStats :=
  let total : ℤ := results.length
  let errorRows : ℤ := (results.filter fun r => r.hasError).length
  let skipped : ℤ := (results.filter fun r => r.rowSkip && !r.hasError).length
  { totalRows := total
    validRows := total - errorRows - skipped
    errorCount := countIssues .error results
    warningCount := countIssues .warning results
    skippedRows := skipped }

/-! ## Import-time deduplication (`import_upload`, mappings.py lines 800-889)

Rows whose `skip` flag is set (error or skip) go to quarantine; the rest are
the ready rows.  `last_row_wins` partitions the ready rows by
`transaction_id`-else-`order_id` and keeps the last row per key (in first
insertion position, as a Python dict does); `aggregate_by_transaction_id`
groups by `transaction_id` only (`use_order_id=False`) and adds `amount`,
`fee_1..3` and `fee_total` of later rows into the first row of each key —
regardless of `operation_type`.  Keyless rows pass through, and pass-through
rows precede the dict values in the result, as in the source.
-/

/-- The `skip` flag on a processed row — quarantined instead of imported. -/
def rowIsQuarantined (r : RowResult) : Bool := r.hasError || r.rowSkip

/-- The rows `import_upload` will consider inserting. -/
def readyRows (results : List RowResult) : List RowResult :=
  results.filter fun r => !(rowIsQuarantined r)

/-- `dedup_key(entry, use_order_id)`. -/
def importDedupKey (useOrderId : Bool) (r : RowResult) : Option String :=
  if r.row.transactionIdNorm ≠ "" then some r.row.transactionIdNorm
  else if useOrderId then
    (if r.row.orderIdNorm ≠ "" then some r.row.orderIdNorm else none)
  else none

/-- Python-dict upsert: replace in place, else append. -/
def dictUpsert (k : String) (v : RowResult) :
    List (String × RowResult) → List (String × RowResult)
  | [] => [(k, v)]
  | (k', v') :: rest =>
    if k' = k then (k', v) :: rest else (k', v') :: dictUpsert k v rest

/-- One merge step of the aggregate policy: numeric fields of the later row
are added into the first row of the key; everything else keeps the first
row's values (including `operation_type`). -/
def mergeAggregated (base add : RowResult) : RowResult :=
  { base with parsed :=
    { base.parsed with
      amount := some (base.parsed.amount.getD 0 + add.parsed.amount.getD 0)
      fee1 := base.parsed.fee1 + add.parsed.fee1
      fee2 := base.parsed.fee2 + add.parsed.fee2
      fee3 := base.parsed.fee3 + add.parsed.fee3
      feeTotal :=
        some (base.parsed.feeTotal.getD 0 + add.parsed.feeTotal.getD 0) } }

/-- Python-dict upsert that merges into an existing entry. -/
def dictMerge (k : String) (v : RowResult) :
    List (String × RowResult) → List (String × RowResult)
  | [] => [(k, v)]
  | (k', v') :: rest =>
    if k' = k then (k', mergeAggregated v' v) :: rest
    else (k', v') :: dictMerge k v rest

/-- One step of the `last_row_wins` loop: keyless rows pass through, keyed
rows go to the dict (last write wins). -/
def lastRowWinsStep (acc : List RowResult × List (String × RowResult))
    (r : RowResult) : List RowResult × List (String × RowResult) :=
  match importDedupKey true r with
  | none => (acc.1 ++ [r], acc.2)
  | some k => (acc.1, dictUpsert k r acc.2)

/-- The `last_row_wins` branch: pass-through rows then the dict values. -/
def lastRowWins (rows : List RowResult) : List RowResult :=
  let s := rows.foldl lastRowWinsStep ([], [])
  s.1 ++ s.2.map Prod.snd

/-- One step of the `aggregate_by_transaction_id` loop. -/
def aggregateStep (acc : List RowResult × List (String × RowResult))
    (r : RowResult) : List RowResult × List (String × RowResult) :=
  match importDedupKey false r with
  | none => (acc.1 ++ [r], acc.2)
  | some k => (acc.1, dictMerge k r acc.2)

/-- The `aggregate_by_transaction_id` branch. -/
def aggregateByTransactionId (rows : List RowResult) : List RowResult :=
  let s := rows.foldl aggregateStep ([], [])
  s.1 ++ s.2.map Prod.snd

/-- Dispatch on the project's `dedup_policy` (any other value is identity). -/
def applyImportDedup (policy : String) (rows : List RowResult) :
    List RowResult :=
  if policy = "last_row_wins" then lastRowWins rows
  else if policy = "aggregate_by_transaction_id" then
    aggregateByTransactionId rows
  else rows

/-- End-to-end: the rows `import_upload` persists as `FactTransaction`s for a
transactions upload, given the mapping's value-remap, the unknown-operation
policy and the project's dedup policy. -/
def importReadyRows (remap : List (String × String))
    (unknownPolicy dedupPolicy : String) (rows : List RowInput) :
    List RowResult :=
  applyImportDedup dedupPolicy
    (readyRows (buildQualityReport remap unknownPolicy rows))

/-! ## Fact rows and compute_metric (backend/app/services/metrics.py)

A `FactRow` is one `fact_transactions` record with the columns the metric
queries touch (nullability as in the migrations: `transaction_id`, fees,
groups, UTM fields, dimension FKs and display names are nullable; imported
rows always carry a date, an operation type and an amount).  `compute_metric`
builds SQL conditions — project, optional date bounds, the allow-listed
filters, and `operation_type = 'refund'` for the `refunds` metric else
`'sale'` — then sums `amount` (gross_sales/refunds), counts distinct
`coalesce(transaction_id, order_id)` (orders), counts distinct `client_id`
(buyers), or sums `coalesce(fee_1,0)+coalesce(fee_2,0)+coalesce(fee_3,0)`
(fees_total).  SQL `COUNT(DISTINCT x)` ignores NULLs, hence the `filterMap`.
Filters on the integer FK columns `product_id`/`manager_id` are not modelled
(treated as absent columns); no claim depends on them. -/

/-- One stored fact-transaction row. -/
structure FactRow where
  projectId : ℕ := 1
  rowId : ℕ := 0
  createdAt : ℕ := 0
  date : Date := ⟨2024, 1, 1⟩
  operationType : String := "sale"
  amount : ℚ := 0
  transactionId : Option String := none
  orderId : Option String := none
  clientId : Option String := none
  fee1 : Option ℚ := none
  fee2 : Option ℚ := none
  fee3 : Option ℚ := none
  feeTotal : Option ℚ := none
  productId : Option ℕ := none
  managerId : Option ℕ := none
  productNameNorm : Option String := none
  managerNorm : Option String := none
  productCategory : Option String := none
  productType : Option String := none
  paymentMethod : Option String := none
  group1 : Option String := none
  group2 : Option String := none
  group3 : Option String := none
  group4 : Option String := none
  group5 : Option String := none
  utmSource : Option String := none
  utmMedium : Option String := none
  utmCampaign : Option String := none
  utmTerm : Option String := none
  utmContent : Option String := none
  deriving DecidableEq, Repr

/-- Dates ordered as SQL orders the `DATE` column. -/
def dateKey (d : Date) : ℕ := d.year * 10000 + d.month * 100 + d.day

/-- Date comparison for the range conditions. -/
def dateLe (a b : Date) : Bool := dateKey a ≤ dateKey b

/-- `TRANSACTION_DIMS`, the filter allow-list of the transaction metrics. -/
def transactionDims : List String :=
  ["product_id", "product_category", "product_type", "manager_id",
   "payment_method", "group_1", "group_2", "group_3", "group_4", "group_5",
   "utm_source", "utm_medium", "utm_campaign", "utm_term", "utm_content"]

/-- `getattr(FactTransaction, key, None)` for the string dimension columns;
`none` means no such column (the filter is silently skipped). -/
def dimColumn (r : FactRow) : String → Option (Option String)
  | "product_category" => some r.productCategory
  | "product_type" => some r.productType
  | "payment_method" => some r.paymentMethod
  | "group_1" => some r.group1
  | "group_2" => some r.group2
  | "group_3" => some r.group3
  | "group_4" => some r.group4
  | "group_5" => some r.group5
  | "utm_source" => some r.utmSource
  | "utm_medium" => some r.utmMedium
  | "utm_campaign" => some r.utmCampaign
  | "utm_term" => some r.utmTerm
  | "utm_content" => some r.utmContent
  | _ => none

/-- The filter conditions: unknown keys and keys outside `dims_allowed` are
ignored; a known column must equal the value (SQL `NULL` matches nothing). -/
def matchesFilters (dimsAllowed : List String)
    (filters : List (String × String)) (r : FactRow) : Bool :=
  filters.all fun kv =>
    if kv.1 ∈ dimsAllowed then
      match dimColumn r kv.1 with
      | none => true
      | some v => v = some kv.2
    else true

/-- Project, date-range and filter conditions shared by the base metrics. -/
def matchesBase (p : ℕ) (fromD toD : Option Date)
    (dimsAllowed : List String) (filters : List (String × String))
    (r : FactRow) : Bool :=
  r.projectId = p &&
  (match fromD with | none => true | some f => dateLe f r.date) &&
  (match toD with | none => true | some t => dateLe r.date t) &&
  matchesFilters dimsAllowed filters r

/-- `coalesce(fee_1, 0) + coalesce(fee_2, 0) + coalesce(fee_3, 0)`. -/
def rowFees (r : FactRow) : ℚ := r.fee1.getD 0 + r.fee2.getD 0 + r.fee3.getD 0

/-- The base-metric branch of `compute_metric` for the five transaction
metrics (`gross_sales`, `refunds`, `orders`, `buyers`, `fees_total`). -/
def computeBaseMetric (key : String) (rows : List FactRow) (p : ℕ)
    (fromD toD : Option Date) (filters : List (String × String)) : ℚ :=
  let operation := if key = "refunds" then "refund" else "sale"
  let matched := rows.filter fun r =>
    matchesBase p fromD toD transactionDims filters r &&
      r.operationType = operation
  if key = "gross_sales" ∨ key = "refunds" then
    (matched.map fun r => r.amount).sum
  else if key = "orders" then
    ((matched.filterMap fun r =>
      r.transactionId.orElse fun _ => r.orderId).dedup.length : ℚ)
  else if key = "buyers" then
    ((matched.filterMap fun r => r.clientId).dedup.length : ℚ)
  else if key = "fees_total" then
    (matched.map rowFees).sum
  else 0

/-- `_fees_by_operation`: the per-operation fee sum used by
`net_profit_simple`. -/
def feesByOperation (rows : List FactRow) (p : ℕ) (fromD toD : Option Date)
    (dimsAllowed : List String) (filters : List (String × String))
    (operationType : String) : ℚ :=
  ((rows.filter fun r =>
      matchesBase p fromD toD dimsAllowed filters r &&
        r.operationType = operationType).map rowFees).sum

/-! ## The dedup-aware effective-rows view, from the specification

Modelled from the spec (section 4.5, Dedup-Aware Fact View) for the
refinement claim: given a project's raw fact rows and its `dedup_policy`,
the "effective" rows are the identity under `keep_all_rows`; under
`last_row_wins` one row per dedup key (`transaction_id`, else `order_id`,
else the row id as a string), keeping the most recently created; under
`aggregate_by_transaction_id` one row per (dedup key, operation_type) with
`amount`, `fee_1..3`, `fee_total` summed and descriptive fields from a
representative row.  This is the spec-side definition to compare against the
code-side `computeBaseMetric`. -/

/-- The spec's dedup key: `transaction_id`, else `order_id`, else id. -/
def specDedupKey (r : FactRow) : String :=
  ((r.transactionId.orElse fun _ => r.orderId).getD (toString r.rowId))

/-- Keep the most recently created row per key. -/
def dictKeepLatest (k : String) (r : FactRow) :
    List (String × FactRow) → List (String × FactRow)
  | [] => [(k, r)]
  | (k', v) :: rest =>
    if k' = k then (k', if v.createdAt ≤ r.createdAt then r else v) :: rest
    else (k', v) :: dictKeepLatest k r rest

/-- The spec's `last_row_wins` view. -/
def specLastRowWins (rows : List FactRow) : List FactRow :=
  (rows.foldl (fun acc r => dictKeepLatest (specDedupKey r) r acc) []).map
    Prod.snd

/-- Sum the numeric fields of two grouped rows (spec: descriptive fields take
a representative value — here the first row's). -/
def mergeFactRows (b r : FactRow) : FactRow :=
  { b with
    amount := b.amount + r.amount
    fee1 := some (b.fee1.getD 0 + r.fee1.getD 0)
    fee2 := some (b.fee2.getD 0 + r.fee2.getD 0)
    fee3 := some (b.fee3.getD 0 + r.fee3.getD 0)
    feeTotal := some (b.feeTotal.getD 0 + r.feeTotal.getD 0) }

/-- Group-and-merge by (dedup key, operation type). -/
def dictMergeFact (k : String × String) (r : FactRow) :
    List ((String × String) × FactRow) → List ((String × String) × FactRow)
  | [] => [(k, r)]
  | (k', v) :: rest =>
    if k' = k then (k', mergeFactRows v r) :: rest
    else (k', v) :: dictMergeFact k r rest

/-- The spec's `aggregate_by_transaction_id` view: grouped by dedup key AND
operation type, numeric fields summed. -/
def specAggregate (rows : List FactRow) : List FactRow :=
  (rows.foldl
    (fun acc r => dictMergeFact (specDedupKey r, r.operationType) r acc)
    []).map Prod.snd

/-- The spec's effective-rows view per dedup policy. -/
def specEffectiveRows (policy : String) (rows : List FactRow) :
    List FactRow :=
  if policy = "keep_all_rows" then rows
  else if policy = "last_row_wins" then specLastRowWins rows
  else if policy = "aggregate_by_transaction_id" then specAggregate rows
  else rows

/-! ## Metric availability (metrics.py, evaluate_metric_availability) -/

/-- The composite requirements and their expansions. -/
def expandedRequirements (r : String) : List String :=
  if r = "fee_any" then ["fee_1", "fee_2", "fee_3"]
  else if r = "group_any" then
    ["group_1", "group_2", "group_3", "group_4", "group_5"]
  else if r = "utm_any_transactions" then
    ["utm_source", "utm_medium", "utm_campaign", "utm_term", "utm_content"]
  else if r = "utm_any_spend" then
    ["utm_source", "utm_medium", "utm_campaign", "utm_term", "utm_content"]
  else if r = "marketing_spend" then ["fact_marketing_spend"]
  else []

/-- Membership in the `expanded_requirements` table. -/
def isComposite (r : String) : Bool :=
  r = "fee_any" || r = "group_any" || r = "utm_any_transactions" ||
    r = "utm_any_spend" || r = "marketing_spend"

/-- `presence.get(key)` with Python's falsy default. -/
def presGet (presence : List (String × Bool)) (k : String) : Bool :=
  (((presence.find? fun p => p.1 = k).map Prod.snd).getD false)

/-- One loop iteration of `evaluate_metric_availability`, accumulating
(missing fields, satisfied count, `partial_override`). -/
def availabilityStep (presence : List (String × Bool))
    (acc : List String × ℕ × Bool) (req : String) : List String × ℕ × Bool :=
  if req = "order_id" ∧ presGet presence "order_id" = false then
    (acc.1 ++ ["order_id"], acc.2.1,
     acc.2.2 || presGet presence "transaction_id")
  else if presGet presence req then (acc.1, acc.2.1 + 1, acc.2.2)
  else if isComposite req then
    (acc.1 ++ expandedRequirements req, acc.2.1, acc.2.2)
  else (acc.1 ++ [req], acc.2.1, acc.2.2)

/-- Insertion into a sorted string list. -/
def insertSorted (s : String) : List String → List String
  | [] => [s]
  | x :: rest => if s ≤ x then s :: x :: rest else x :: insertSorted s rest

/-- Python's `sorted(set(l))`. -/
def sortedDedup (l : List String) : List String :=
  l.dedup.foldr insertSorted []

/-- `evaluate_metric_availability(requirements, presence)`:
`available` when every requirement counts as satisfied, `unavailable` when
none does and the `order_id`→`transaction_id` override did not fire, else
`partial`. -/
def evaluateMetricAvailability (requirements : List String)
    (presence : List (String × Bool)) : String × List String :=
  if requirements.isEmpty then ("available", [])
  else
    let acc := requirements.foldl (availabilityStep presence) ([], 0, false)
    if acc.2.1 = requirements.length then ("available", [])
    else if acc.2.1 = 0 ∧ acc.2.2 = false then
      ("unavailable", sortedDedup acc.1)
    else ("partial", sortedDedup acc.1)

/-! ## Dimension aliases (backend/app/api/routes/dimensions.py)

`_apply_product_alias` / `_apply_manager_alias`: upsert the alias row (an
existing alias for the project is repointed, otherwise inserted), then update
every fact row of the project whose normalized name equals the alias, setting
the dimension FK and the normalized display name to the target's canonical
name. -/

/-- A canonical dimension entity (`DimProduct` / `DimManager`). -/
structure DimEntity where
  id : ℕ
  canonicalName : String
  deriving DecidableEq, Repr

/-- An alias row (`DimProductAlias` / `DimManagerAlias`). -/
structure AliasRow where
  projectId : ℕ
  aliasText : String
  targetId : ℕ
  deriving DecidableEq, Repr

/-- Repoint an existing `(project, alias)` row or insert a new one. -/
def upsertAliasRow (p : ℕ) (a : String) (target : ℕ) :
    List AliasRow → List AliasRow
  | [] => [⟨p, a, target⟩]
  | row :: rest =>
    if row.projectId = p ∧ row.aliasText = a then
      { row with targetId := target } :: rest
    else row :: upsertAliasRow p a target rest

/-- The fact-table UPDATE of `_apply_product_alias` on one row. -/
def productBackfill (p : ℕ) (a : String) (product : DimEntity)
    (f : FactRow) : FactRow :=
  if f.projectId = p ∧ f.productNameNorm = some a then
    { f with
      productId := some product.id
      productNameNorm := some product.canonicalName }
  else f

/-- `_apply_product_alias`: alias upsert plus eager backfill of all facts. -/
def applyProductAlias (aliasRows : List AliasRow) (facts : List FactRow)
    (p : ℕ) (a : String) (product : DimEntity) :
    List AliasRow × List FactRow :=
  (upsertAliasRow p a product.id aliasRows,
   facts.map (productBackfill p a product))

/-- The fact-table UPDATE of `_apply_manager_alias` on one row. -/
def managerBackfill (p : ℕ) (a : String) (manager : DimEntity)
    (f : FactRow) : FactRow :=
  if f.projectId = p ∧ f.managerNorm = some a then
    { f with
      managerId := some manager.id
      managerNorm := some manager.canonicalName }
  else f

/-- `_apply_manager_alias`: alias upsert plus eager backfill of all facts. -/
def applyManagerAlias (aliasRows : List AliasRow) (facts : List FactRow)
    (p : ℕ) (a : String) (manager : DimEntity) :
    List AliasRow × List FactRow :=
  (upsertAliasRow p a manager.id aliasRows,
   facts.map (managerBackfill p a manager))

/-! ## Dashboard deltas (backend/app/services/dashboard.py, `_delta`) -/

/-- `_delta(current, previous)`: `(current - previous) / previous`, nothing
when the previous value is absent or zero.  The dashboard calls it with the
current value and the 7-day (WoW) or 30-day (MoM) shifted aggregate. -/
def delta (current : ℚ) (previous : Option ℚ) : Option ℚ :=
  match previous with
  | none => none
  | some p => if p = 0 then none else some ((current - p) / p)

/-! ## Round-trip lemmas for the date formats -/

theorem splitSep_of_not_mem {sep : Char} {l : List Char} (h : sep ∉ l) :
    splitSep sep l = [l] := by
  induction l with
  | nil => rfl
  | cons c t ih =>
    have hc : c ≠ sep := fun hc => h (hc ▸ List.mem_cons_self c t)
    have ht : sep ∉ t := fun hm => h (List.mem_cons_of_mem c hm)
    simp [splitSep, hc, ih ht]

theorem splitSep_append {sep : Char} {a b : List Char} (h : sep ∉ a) :
    splitSep sep (a ++ sep :: b) = a :: splitSep sep b := by
  induction a with
  | nil => simp [splitSep]
  | cons c t ih =>
    have hc : c ≠ sep := fun hc => h (hc ▸ List.mem_cons_self c t)
    have ht : sep ∉ t := fun hm => h (List.mem_cons_of_mem c hm)
    show splitSep sep (c :: (t ++ sep :: b)) = (c :: t) :: splitSep sep b
    simp only [splitSep, if_neg hc, ih ht, List.headD, List.tail]

theorem toNat_ofNat_digit {x : ℕ} (hx : x < 10) :
    (Char.ofNat (48 + x)).toNat = 48 + x := by
  interval_cases x <;> decide

theorem isDigitChar_ofNat_digit {x : ℕ} (hx : x < 10) :
    isDigitChar (Char.ofNat (48 + x)) = true := by
  interval_cases x <;> decide

theorem padNum_length (k n : ℕ) : (padNum k n).length = k := by
  induction k generalizing n with
  | zero => rfl
  | succ k ih => simp [padNum, ih]

theorem mem_padNum_isDigit {k n : ℕ} {c : Char} (h : c ∈ padNum k n) :
    isDigitChar c = true := by
  induction k generalizing n with
  | zero => cases h
  | succ k ih =>
    rcases List.mem_cons.mp h with h1 | h2
    · exact h1 ▸ isDigitChar_ofNat_digit (Nat.mod_lt _ (by norm_num))
    · exact ih h2

theorem not_mem_padNum {k n : ℕ} {c : Char} (h : isDigitChar c = false) :
    c ∉ padNum k n := fun hm => by
  rw [mem_padNum_isDigit hm] at h
  exact Bool.noConfusion h

theorem foldl_padNum (k n : ℕ) :
    ∀ acc, (padNum k n).foldl (fun acc c => 10 * acc + (c.toNat - 48)) acc
      = acc * 10 ^ k + n % 10 ^ k := by
  induction k with
  | zero => simp [padNum, Nat.mod_one]
  | succ k ih =>
    intro acc
    have hx : n / 10 ^ k % 10 < 10 := Nat.mod_lt _ (by norm_num)
    simp only [padNum, List.foldl_cons, toNat_ofNat_digit hx,
      Nat.add_sub_cancel_left, ih]
    have hmod : n % 10 ^ (k + 1) = n % 10 ^ k + 10 ^ k * (n / 10 ^ k % 10) := by
      rw [pow_succ, Nat.mod_mul]
    rw [hmod, pow_succ]
    ring

theorem digitsVal_padNum {k n : ℕ} (h : n < 10 ^ k) :
    digitsVal (padNum k n) = n := by
  unfold digitsVal
  rw [foldl_padNum, Nat.mod_eq_of_lt h]
  simp

theorem all_isDigit_padNum (k n : ℕ) : (padNum k n).all isDigitChar = true := by
  rw [List.all_eq_true]
  exact fun c hc => mem_padNum_isDigit hc

theorem fieldVal_padNum {lo hi k n : ℕ} (h1 : lo ≤ k) (h2 : k ≤ hi)
    (h3 : n < 10 ^ k) : fieldVal? lo hi (padNum k n) = some n := by
  rw [fieldVal?, if_pos, digitsVal_padNum h3]
  exact ⟨by rw [padNum_length]; exact h1, by rw [padNum_length]; exact h2,
    all_isDigit_padNum k n⟩

theorem fieldVal_none_of_length {lo hi : ℕ} {l : List Char}
    (h : ¬(lo ≤ l.length ∧ l.length ≤ hi)) : fieldVal? lo hi l = none := by
  rw [fieldVal?, if_neg]
  intro ⟨ha, hb, _⟩
  exact h ⟨ha, hb⟩

theorem mkDate_none_left {m d : Option ℕ} : mkDate? none m d = none := by
  cases m <;> cases d <;> rfl

theorem mkDate_none_right {y m : Option ℕ} : mkDate? y m none = none := by
  cases y <;> cases m <;> rfl

theorem isWhitespace_false_of_digit {c : Char} (h : isDigitChar c = true) :
    c.isWhitespace = false := by
  simp only [isDigitChar, Bool.and_eq_true, decide_eq_true_eq] at h
  obtain ⟨h1, h2⟩ := h
  cases hw : c.isWhitespace
  · rfl
  · exfalso
    have : ((c = ' ' ∨ c = '\t') ∨ c = '\r') ∨ c = '\n' := by
      simpa [Char.isWhitespace] using hw
    rcases this with ((h' | h') | h') | h' <;> subst h' <;> revert h1 <;> decide

theorem dropWhile_eq_self_of_all {p : Char → Bool} {l : List Char}
    (h : ∀ c ∈ l, p c = false) : l.dropWhile p = l := by
  cases l with
  | nil => rfl
  | cons c t => simp [List.dropWhile_cons, h c (List.mem_cons_self c t)]

theorem pyStrip_eq_self {l : List Char}
    (h : ∀ c ∈ l, c.isWhitespace = false) : pyStrip l = l := by
  unfold pyStrip
  rw [dropWhile_eq_self_of_all h,
    dropWhile_eq_self_of_all (fun c hc => h c (List.mem_reverse.mp hc)),
    List.reverse_reverse]

theorem splitSep_three {sep : Char} {a b c : List Char} (ha : sep ∉ a)
    (hb : sep ∉ b) (hc : sep ∉ c) :
    splitSep sep (a ++ sep :: (b ++ sep :: c)) = [a, b, c] := by
  rw [splitSep_append ha, splitSep_append hb, splitSep_of_not_mem hc]

theorem not_mem_padRender {x sep : Char} {i j k a b c : ℕ}
    (hx : isDigitChar x = false) (hxs : x ≠ sep) :
    x ∉ padNum i a ++ sep :: (padNum j b ++ sep :: padNum k c) := by
  intro hm
  simp only [List.mem_append, List.mem_cons] at hm
  rcases hm with h | h | h | h | h
  · exact not_mem_padNum hx h
  · exact hxs h
  · exact not_mem_padNum hx h
  · exact hxs h
  · exact not_mem_padNum hx h

theorem ws_false_padRender {sep : Char} {i j k a b c : ℕ}
    (hsep : sep.isWhitespace = false) :
    ∀ x ∈ padNum i a ++ sep :: (padNum j b ++ sep :: padNum k c),
      x.isWhitespace = false := by
  intro x hm
  simp only [List.mem_append, List.mem_cons] at hm
  rcases hm with h | h | h | h | h
  · exact isWhitespace_false_of_digit (mem_padNum_isDigit h)
  · exact h ▸ hsep
  · exact isWhitespace_false_of_digit (mem_padNum_isDigit h)
  · exact h ▸ hsep
  · exact isWhitespace_false_of_digit (mem_padNum_isDigit h)

theorem parseYMD_none_of_not_mem {sep : Char} {l : List Char} (h : sep ∉ l) :
    parseYMD sep l = none := by
  simp [parseYMD, splitSep_of_not_mem h]

theorem parseDMY_none_of_not_mem {sep : Char} {l : List Char} (h : sep ∉ l) :
    parseDMY sep l = none := by
  simp [parseDMY, splitSep_of_not_mem h]

theorem parseISO_none_of_not_mem {l : List Char} (h : '-' ∉ l) :
    parseISO l = none := by
  simp [parseISO, splitSep_of_not_mem h]

theorem parseYMDDateTime_none_of_not_mem {l : List Char} (h1 : ' ' ∉ l)
    (h2 : 'T' ∉ l) : parseYMDDateTime l = none := by
  simp [parseYMDDateTime, parseYMDTimeSep, splitSep_of_not_mem h1,
    splitSep_of_not_mem h2, Option.orElse]

/-- Success of the day-first pattern on a day-first render. -/
theorem parseDMY_render {sep : Char} {y m d : ℕ} (hsep : isDigitChar sep = false)
    (hy : y < 10 ^ 4) (hm : m < 10 ^ 2) (hd : d < 10 ^ 2)
    (hv : validDate y m d = true) :
    parseDMY sep (padNum 2 d ++ sep :: (padNum 2 m ++ sep :: padNum 4 y))
      = some ⟨y, m, d⟩ := by
  rw [parseDMY,
    splitSep_three (not_mem_padNum hsep) (not_mem_padNum hsep) (not_mem_padNum hsep)]
  simp only [@fieldVal_padNum 1 4 4 y (by norm_num) (by norm_num) hy,
    @fieldVal_padNum 1 2 2 m (by norm_num) (by norm_num) hm,
    @fieldVal_padNum 1 2 2 d (by norm_num) (by norm_num) hd, mkDate?, if_pos hv]

/-- Success of the year-first pattern on a year-first render. -/
theorem parseYMD_render {sep : Char} {y m d : ℕ} (hsep : isDigitChar sep = false)
    (hy : y < 10 ^ 4) (hm : m < 10 ^ 2) (hd : d < 10 ^ 2)
    (hv : validDate y m d = true) :
    parseYMD sep (padNum 4 y ++ sep :: (padNum 2 m ++ sep :: padNum 2 d))
      = some ⟨y, m, d⟩ := by
  rw [parseYMD,
    splitSep_three (not_mem_padNum hsep) (not_mem_padNum hsep) (not_mem_padNum hsep)]
  simp only [@fieldVal_padNum 1 4 4 y (by norm_num) (by norm_num) hy,
    @fieldVal_padNum 1 2 2 m (by norm_num) (by norm_num) hm,
    @fieldVal_padNum 1 2 2 d (by norm_num) (by norm_num) hd, mkDate?, if_pos hv]

/-- Success of ISO on the padded year-first `-` render. -/
theorem parseISO_render {y m d : ℕ} (hy : y < 10 ^ 4) (hm : m < 10 ^ 2)
    (hd : d < 10 ^ 2) (hv : validDate y m d = true) :
    parseISO (padNum 4 y ++ '-' :: (padNum 2 m ++ '-' :: padNum 2 d))
      = some ⟨y, m, d⟩ := by
  have hnd : isDigitChar '-' = false := by decide
  rw [parseISO,
    splitSep_three (not_mem_padNum hnd) (not_mem_padNum hnd) (not_mem_padNum hnd)]
  simp only [@fieldVal_padNum 4 4 4 y (by norm_num) (by norm_num) hy,
    @fieldVal_padNum 2 2 2 m (by norm_num) (by norm_num) hm,
    @fieldVal_padNum 2 2 2 d (by norm_num) (by norm_num) hd, mkDate?, if_pos hv]

/-- The day-first pattern rejects a year-first render: the four-digit year
lands in the two-digit day field. -/
theorem parseDMY_renderYMD_none {sep : Char} {y m d : ℕ}
    (hsep : isDigitChar sep = false) :
    parseDMY sep (padNum 4 y ++ sep :: (padNum 2 m ++ sep :: padNum 2 d))
      = none := by
  rw [parseDMY,
    splitSep_three (not_mem_padNum hsep) (not_mem_padNum hsep) (not_mem_padNum hsep)]
  simp only [@fieldVal_none_of_length 1 2 (padNum 4 y)
      (by rw [padNum_length]; omega), mkDate_none_right]

/-- The year-first pattern rejects a day-first render: the four-digit year
lands in the two-digit day field. -/
theorem parseYMD_renderDMY_none {sep : Char} {y m d : ℕ}
    (hsep : isDigitChar sep = false) :
    parseYMD sep (padNum 2 d ++ sep :: (padNum 2 m ++ sep :: padNum 4 y))
      = none := by
  rw [parseYMD,
    splitSep_three (not_mem_padNum hsep) (not_mem_padNum hsep) (not_mem_padNum hsep)]
  simp only [@fieldVal_none_of_length 1 2 (padNum 4 y)
      (by rw [padNum_length]; omega), mkDate_none_right]

/-- ISO rejects a day-first `-` render: the year field is not four digits. -/
theorem parseISO_renderDMY_none {y m d : ℕ} :
    parseISO (padNum 2 d ++ '-' :: (padNum 2 m ++ '-' :: padNum 4 y)) = none := by
  have hnd : isDigitChar '-' = false := by decide
  rw [parseISO,
    splitSep_three (not_mem_padNum hnd) (not_mem_padNum hnd) (not_mem_padNum hnd)]
  simp only [@fieldVal_none_of_length 4 4 (padNum 2 d)
      (by rw [padNum_length]; omega), mkDate_none_left]

/-- Unfolding `parse_date` on a nonempty whitespace-free character list. -/
theorem parse_date_mk {l : List Char} (hne : l ≠ [])
    (hws : ∀ c ∈ l, c.isWhitespace = false) :
    parse_date ⟨l⟩ =
      ((parseISO l).orElse fun _ =>
       (parseYMD '-' l).orElse fun _ =>
       (parseYMDDateTime l).orElse fun _ =>
       (parseDMY '.' l).orElse fun _ =>
       (parseDMY '/' l).orElse fun _ =>
       (parseYMD '/' l).orElse fun _ =>
       (parseYMD '.' l).orElse fun _ =>
       parseDMY '-' l) := by
  rw [parse_date, if_neg fun h => hne (congrArg String.data h)]
  show ((parseISO (pyStrip l)).orElse _) = _
  rw [pyStrip_eq_self hws]

theorem mkDate_valid {a b c : Option ℕ} {dt : Date}
    (h : mkDate? a b c = some dt) :
    validDate dt.year dt.month dt.day = true := by
  match a, b, c with
  | some y, some m, some d =>
    simp only [mkDate?] at h
    split at h
    · cases h
      assumption
    · cases h
  | none, _, _ => rw [mkDate_none_left] at h; cases h
  | some _, none, _ => cases c <;> cases h
  | some _, some _, none => cases h

theorem parseDMY_valid {sep : Char} {l : List Char} {dt : Date}
    (h : parseDMY sep l = some dt) :
    validDate dt.year dt.month dt.day = true := by
  unfold parseDMY at h
  split at h
  · exact mkDate_valid h
  · cases h

theorem parseYMD_valid {sep : Char} {l : List Char} {dt : Date}
    (h : parseYMD sep l = some dt) :
    validDate dt.year dt.month dt.day = true := by
  unfold parseYMD at h
  split at h
  · exact mkDate_valid h
  · cases h

theorem parseISO_valid {l : List Char} {dt : Date}
    (h : parseISO l = some dt) :
    validDate dt.year dt.month dt.day = true := by
  unfold parseISO at h
  split at h
  · exact mkDate_valid h
  · cases h

theorem orElse_some {α : Type} {a : Option α} {f : Unit → Option α} {x : α}
    (h : a.orElse f = some x) : a = some x ∨ f () = some x := by
  cases a with
  | none => right; simpa [Option.orElse] using h
  | some v => left; simpa [Option.orElse] using h

theorem parseYMDTimeSep_valid {sep : Char} {l : List Char} {dt : Date}
    (h : parseYMDTimeSep sep l = some dt) :
    validDate dt.year dt.month dt.day = true := by
  unfold parseYMDTimeSep at h
  split at h
  · split at h
    · exact parseYMD_valid h
    · cases h
  · cases h

theorem parseYMDDateTime_valid {l : List Char} {dt : Date}
    (h : parseYMDDateTime l = some dt) :
    validDate dt.year dt.month dt.day = true := by
  unfold parseYMDDateTime at h
  rcases orElse_some h with h' | h' <;> exact parseYMDTimeSep_valid h'

/-- Any date `parse_date` returns passed the calendar validation. -/
theorem parse_date_valid {s : String} {dt : Date}
    (h : parse_date s = some dt) :
    validDate dt.year dt.month dt.day = true := by
  unfold parse_date at h
  split at h
  · cases h
  · rcases orElse_some h with h' | h'
    · exact parseISO_valid h'
    rcases orElse_some h' with h'' | h''
    · exact parseYMD_valid h''
    rcases orElse_some h'' with h3 | h3
    · exact parseYMDDateTime_valid h3
    rcases orElse_some h3 with h4 | h4
    · exact parseDMY_valid h4
    rcases orElse_some h4 with h5 | h5
    · exact parseDMY_valid h5
    rcases orElse_some h5 with h6 | h6
    · exact parseYMD_valid h6
    rcases orElse_some h6 with h7 | h7
    · exact parseYMD_valid h7
    · exact parseDMY_valid h7

theorem daysInMonth_le (y m : ℕ) : daysInMonth y m ≤ 31 := by
  unfold daysInMonth
  split_ifs <;> omega

theorem validDate_bounds {y m d : ℕ} (h : validDate y m d = true) :
    y < 10 ^ 4 ∧ m < 10 ^ 2 ∧ d < 10 ^ 2 := by
  simp only [validDate, Bool.and_eq_true, decide_eq_true_eq] at h
  obtain ⟨⟨⟨⟨⟨_, hy⟩, _⟩, hm⟩, _⟩, hd⟩ := h
  have := daysInMonth_le y m
  refine ⟨by omega, by omega, by omega⟩

/-- C8: for every calendar date, rendering it in any of the six supported
locale formats (`YYYY-MM-DD`, `DD.MM.YYYY`, `DD/MM/YYYY`, `YYYY/MM/DD`,
`YYYY.MM.DD`, `DD-MM-YYYY`) and running `parse_date` returns that same date
(ISO-8601 is tried first, then the format list in source order, first match
winning); and `parse_date` is total: on any input it returns either no date
at all or a calendar-valid date — it never raises. -/
theorem parse_date_six_formats_roundtrip :
    (∀ y m d : ℕ, validDate y m d = true →
      parse_date (renderYMD '-' y m d) = some ⟨y, m, d⟩ ∧
      parse_date (renderDMY '.' y m d) = some ⟨y, m, d⟩ ∧
      parse_date (renderDMY '/' y m d) = some ⟨y, m, d⟩ ∧
      parse_date (renderYMD '/' y m d) = some ⟨y, m, d⟩ ∧
      parse_date (renderYMD '.' y m d) = some ⟨y, m, d⟩ ∧
      parse_date (renderDMY '-' y m d) = some ⟨y, m, d⟩) ∧
    (∀ s : String, parse_date s = none ∨
      ∃ dt : Date, parse_date s = some dt ∧
        validDate dt.year dt.month dt.day = true) := by
  constructor
  · intro y m d h
    obtain ⟨hy, hm, hd⟩ := validDate_bounds h
    refine ⟨?_, ?_, ?_, ?_, ?_, ?_⟩
    · simp only [renderYMD]
      rw [parse_date_mk (by simp) (ws_false_padRender (by decide)),
        parseISO_render hy hm hd h]
      rfl
    · simp only [renderDMY]
      rw [parse_date_mk (by simp) (ws_false_padRender (by decide)),
        parseISO_none_of_not_mem (not_mem_padRender (by decide) (by decide)),
        parseYMD_none_of_not_mem (not_mem_padRender (by decide) (by decide)),
        parseYMDDateTime_none_of_not_mem
          (not_mem_padRender (by decide) (by decide))
          (not_mem_padRender (by decide) (by decide)),
        parseDMY_render (by decide) hy hm hd h]
      rfl
    · simp only [renderDMY]
      rw [parse_date_mk (by simp) (ws_false_padRender (by decide)),
        parseISO_none_of_not_mem (not_mem_padRender (by decide) (by decide)),
        parseYMD_none_of_not_mem (not_mem_padRender (by decide) (by decide)),
        parseYMDDateTime_none_of_not_mem
          (not_mem_padRender (by decide) (by decide))
          (not_mem_padRender (by decide) (by decide)),
        parseDMY_none_of_not_mem (not_mem_padRender (by decide) (by decide)),
        parseDMY_render (by decide) hy hm hd h]
      rfl
    · simp only [renderYMD]
      rw [parse_date_mk (by simp) (ws_false_padRender (by decide)),
        parseISO_none_of_not_mem (not_mem_padRender (by decide) (by decide)),
        parseYMD_none_of_not_mem (not_mem_padRender (by decide) (by decide)),
        parseYMDDateTime_none_of_not_mem
          (not_mem_padRender (by decide) (by decide))
          (not_mem_padRender (by decide) (by decide)),
        parseDMY_none_of_not_mem (not_mem_padRender (by decide) (by decide)),
        parseDMY_renderYMD_none (by decide),
        parseYMD_render (by decide) hy hm hd h]
      rfl
    · simp only [renderYMD]
      rw [parse_date_mk (by simp) (ws_false_padRender (by decide)),
        parseISO_none_of_not_mem (not_mem_padRender (by decide) (by decide)),
        parseYMD_none_of_not_mem (not_mem_padRender (by decide) (by decide)),
        parseYMDDateTime_none_of_not_mem
          (not_mem_padRender (by decide) (by decide))
          (not_mem_padRender (by decide) (by decide)),
        parseDMY_renderYMD_none (by decide),
        parseDMY_none_of_not_mem (not_mem_padRender (by decide) (by decide)),
        parseYMD_none_of_not_mem (not_mem_padRender (by decide) (by decide)),
        parseYMD_render (by decide) hy hm hd h]
      rfl
    · simp only [renderDMY]
      rw [parse_date_mk (by simp) (ws_false_padRender (by decide)),
        parseISO_renderDMY_none,
        parseYMD_renderDMY_none (by decide),
        parseYMDDateTime_none_of_not_mem
          (not_mem_padRender (by decide) (by decide))
          (not_mem_padRender (by decide) (by decide)),
        parseDMY_none_of_not_mem (not_mem_padRender (by decide) (by decide)),
        parseDMY_none_of_not_mem (not_mem_padRender (by decide) (by decide)),
        parseYMD_none_of_not_mem (not_mem_padRender (by decide) (by decide)),
        parseYMD_none_of_not_mem (not_mem_padRender (by decide) (by decide)),
        parseDMY_render (by decide) hy hm hd h]
      rfl
  · intro s
    cases hp : parse_date s with
    | none => exact Or.inl rfl
    | some dt => exact Or.inr ⟨dt, rfl, parse_date_valid hp⟩

/-- Witness for C8 at the concrete date 2024-01-02 in `DD.MM.YYYY` form. -/
theorem parse_date_six_formats_roundtrip_witness :
    parse_date "02.01.2024" = some ⟨2024, 1, 2⟩ := by
  have h := (parse_date_six_formats_roundtrip.1 2024 1 2 (by decide)).2.1
  rwa [show renderDMY '.' 2024 1 2 = "02.01.2024" from by decide] at h

/-! ## Settling the parse_float claim -/

/-- C3 counterexample: on `"2.000,50"` both a comma and a dot are present, so
the code removes the comma and reads `"2.00050"`, returning 2.0005 — not the
2000.50 the claim asserts for this European-style string. -/
theorem parse_float_mixed_counterexample :
    parse_float "2.000,50" = some (20005 / 10000 : ℚ) ∧
    (20005 / 10000 : ℚ) ≠ (200050 / 100 : ℚ) := by
  constructor
  · have h : parse_float "2.000,50" =
        some ((digitsVal ['2'] : ℚ) +
          (digitsVal ['0', '0', '0', '5', '0'] : ℚ) / 10 ^ 5) := rfl
    have d1 : digitsVal ['2'] = 2 := by decide
    have d2 : digitsVal ['0', '0', '0', '5', '0'] = 50 := by decide
    rw [h, d1, d2]
    norm_num
  · norm_num

/-- C3 amended: `parse_float` strips spaces/currency symbols and, when both
`,` and `.` survive the cleaning, removes the commas (so `"1,234.56"` reads
1234.56 but `"2.000,50"` reads 2.0005); with no dot a comma becomes the
decimal point (`"2000,50"` reads 2000.5); `"1 500 ₽"` reads 1500; an
unparseable residual gives back nothing. -/
theorem parse_float_separator_rules :
    parse_float "1 500 ₽" = some 1500 ∧
    parse_float "1,234.56" = some (123456 / 100 : ℚ) ∧
    parse_float "2.000,50" = some (20005 / 10000 : ℚ) ∧
    parse_float "2000,50" = some (200050 / 100 : ℚ) ∧
    parse_float "-10" = some (-10) ∧
    parse_float "abc" = none ∧
    parse_float "" = none := by
  refine ⟨by decide, ?_, ?_, ?_, by decide, by decide, by decide⟩
  · have h : parse_float "1,234.56" =
        some ((digitsVal ['1', '2', '3', '4'] : ℚ) +
          (digitsVal ['5', '6'] : ℚ) / 10 ^ 2) := rfl
    have d1 : digitsVal ['1', '2', '3', '4'] = 1234 := by decide
    have d2 : digitsVal ['5', '6'] = 56 := by decide
    rw [h, d1, d2]
    norm_num
  · have h : parse_float "2.000,50" =
        some ((digitsVal ['2'] : ℚ) +
          (digitsVal ['0', '0', '0', '5', '0'] : ℚ) / 10 ^ 5) := rfl
    have d1 : digitsVal ['2'] = 2 := by decide
    have d2 : digitsVal ['0', '0', '0', '5', '0'] = 50 := by decide
    rw [h, d1, d2]
    norm_num
  · have h : parse_float "2000,50" =
        some ((digitsVal ['2', '0', '0', '0'] : ℚ) +
          (digitsVal ['5', '0'] : ℚ) / 10 ^ 2) := rfl
    have d1 : digitsVal ['2', '0', '0', '0'] = 2000 := by decide
    have d2 : digitsVal ['5', '0'] = 50 := by decide
    rw [h, d1, d2]
    norm_num

/-! ## Settling the aggregate-dedup claim -/

/-- C2 counterexample: two ready rows share transaction key `t1` but have
DIFFERENT operation types (a sale of 100 and a refund of 40).  The claim says
grouping is by dedup key AND operation type, so they must not merge into one
row; the code keys on `transaction_id` alone and folds the refund into the
sale row: one row remains, typed `sale`, with amount 140. -/
theorem aggregate_merges_across_operation_types :
    (importReadyRows [("sale", "sale"), ("refund", "refund")] "error"
      "aggregate_by_transaction_id"
      [{ paidAtRaw := "2024-01-01", paidAtNorm := "2024-01-01",
         operationNorm := "sale", amountRaw := "100", amountNorm := "100",
         transactionIdNorm := "t1" },
       { paidAtRaw := "2024-01-03", paidAtNorm := "2024-01-03",
         operationNorm := "refund", amountRaw := "40", amountNorm := "40",
         transactionIdNorm := "t1" }]).length = 1 ∧
    (importReadyRows [("sale", "sale"), ("refund", "refund")] "error"
      "aggregate_by_transaction_id"
      [{ paidAtRaw := "2024-01-01", paidAtNorm := "2024-01-01",
         operationNorm := "sale", amountRaw := "100", amountNorm := "100",
         transactionIdNorm := "t1" },
       { paidAtRaw := "2024-01-03", paidAtNorm := "2024-01-03",
         operationNorm := "refund", amountRaw := "40", amountNorm := "40",
         transactionIdNorm := "t1" }]).map (fun r => r.parsed.operationType)
      = [some "sale"] ∧
    (importReadyRows [("sale", "sale"), ("refund", "refund")] "error"
      "aggregate_by_transaction_id"
      [{ paidAtRaw := "2024-01-01", paidAtNorm := "2024-01-01",
         operationNorm := "sale", amountRaw := "100", amountNorm := "100",
         transactionIdNorm := "t1" },
       { paidAtRaw := "2024-01-03", paidAtNorm := "2024-01-03",
         operationNorm := "refund", amountRaw := "40", amountNorm := "40",
         transactionIdNorm := "t1" }]).map (fun r => r.parsed.amount)
      = [some 140] := by
  refine ⟨by decide, by decide, ?_⟩
  have h : (importReadyRows [("sale", "sale"), ("refund", "refund")] "error"
      "aggregate_by_transaction_id"
      [{ paidAtRaw := "2024-01-01", paidAtNorm := "2024-01-01",
         operationNorm := "sale", amountRaw := "100", amountNorm := "100",
         transactionIdNorm := "t1" },
       { paidAtRaw := "2024-01-03", paidAtNorm := "2024-01-03",
         operationNorm := "refund", amountRaw := "40", amountNorm := "40",
         transactionIdNorm := "t1" }]).map (fun r => r.parsed.amount)
      = [some ((digitsVal ['1', '0', '0'] : ℚ) + (digitsVal ['4', '0'] : ℚ))] :=
    rfl
  rw [h, show digitsVal ['1', '0', '0'] = 100 from by decide,
    show digitsVal ['4', '0'] = 40 from by decide]
  norm_num

/-- C2 amended: under `aggregate_by_transaction_id` the grouping key is the
`transaction_id` alone — `order_id` is not used as a fallback and the
operation type is ignored.  Any two ready rows sharing a transaction key
collapse to one row whose amount and fees are the sums of the pair and whose
other fields (including operation type) come from the first row; in
particular two rows with the same key and the same operation type collapse to
one row with summed amount/fees, as the claim's positive half states. -/
theorem aggregate_groups_by_transaction_id_only (e1 e2 : RowResult)
    (k : String) (h1 : importDedupKey false e1 = some k)
    (h2 : importDedupKey false e2 = some k) :
    aggregateByTransactionId [e1, e2] = [mergeAggregated e1 e2] ∧
    (mergeAggregated e1 e2).parsed.amount
      = some (e1.parsed.amount.getD 0 + e2.parsed.amount.getD 0) ∧
    (mergeAggregated e1 e2).parsed.fee1 = e1.parsed.fee1 + e2.parsed.fee1 ∧
    (mergeAggregated e1 e2).parsed.fee2 = e1.parsed.fee2 + e2.parsed.fee2 ∧
    (mergeAggregated e1 e2).parsed.fee3 = e1.parsed.fee3 + e2.parsed.fee3 ∧
    (mergeAggregated e1 e2).parsed.feeTotal
      = some (e1.parsed.feeTotal.getD 0 + e2.parsed.feeTotal.getD 0) ∧
    (mergeAggregated e1 e2).parsed.operationType
      = e1.parsed.operationType := by
  refine ⟨?_, rfl, rfl, rfl, rfl, rfl, rfl⟩
  simp [aggregateByTransactionId, aggregateStep, h1, h2, dictMerge]

/-- Witness for the amended C2 at two concrete same-key sale rows. -/
theorem aggregate_groups_by_transaction_id_only_witness :
    aggregateByTransactionId
        [{ row := { transactionIdNorm := "t9" },
           parsed := { amount := some 5, operationType := some "sale" } },
         { row := { transactionIdNorm := "t9" },
           parsed := { amount := some 7, operationType := some "sale" } }]
      = [mergeAggregated
          { row := { transactionIdNorm := "t9" },
            parsed := { amount := some 5, operationType := some "sale" } }
          { row := { transactionIdNorm := "t9" },
            parsed := { amount := some 7, operationType := some "sale" } }] :=
  (aggregate_groups_by_transaction_id_only
    { row := { transactionIdNorm := "t9" },
      parsed := { amount := some 5, operationType := some "sale" } }
    { row := { transactionIdNorm := "t9" },
      parsed := { amount := some 7, operationType := some "sale" } }
    "t9" (by decide) (by decide)).1

/-! ## Amount positivity through the pipeline -/

theorem amountCheck_some_pos {i : ℕ} {raw : String} {a : ℚ}
    (h : (amountCheck i raw).1 = some a) : 0 < a := by
  unfold amountCheck at h
  rcases hp : parse_float raw with _ | b <;> rw [hp] at h
  · cases h
  · by_cases hb0 : b = 0
    · simp [hb0] at h
    · by_cases hbneg : b < 0
      · simp [hb0, hbneg] at h
        rw [← h]
        linarith
      · simp [hb0, hbneg] at h
        rw [← h]
        exact lt_of_le_of_ne (not_lt.mp hbneg) (Ne.symm hb0)

theorem mem_processRows {remap : List (String × String)} {policy : String} :
    ∀ {idx : ℕ} {seen : List String} {rows : List RowInput} {r : RowResult},
      r ∈ processRows remap policy idx seen rows →
      ∃ i s row, r = (processTransactionRow remap policy i s row).1 := by
  intro idx seen rows
  induction rows generalizing idx seen with
  | nil => intro r h; cases h
  | cons x rest ih =>
    intro r h
    rcases List.mem_cons.mp h with h | h
    · exact ⟨idx, seen, x, h⟩
    · exact ih h

theorem ready_amount_pos {remap : List (String × String)} {policy : String}
    {rows : List RowInput} :
    ∀ r ∈ readyRows (buildQualityReport remap policy rows),
      ∃ a, r.parsed.amount = some a ∧ 0 < a := by
  intro r hr
  rw [readyRows, List.mem_filter] at hr
  obtain ⟨hmem, hflag⟩ := hr
  have hE : r.hasError = false ∧ r.rowSkip = false := by
    simpa [rowIsQuarantined] using hflag
  rw [buildQualityReport] at hmem
  obtain ⟨i, s, row, rfl⟩ := mem_processRows hmem
  have hHE : rowHasError remap policy i row = false := hE.1
  have hSK : rowSkipFlag remap policy i row = false := hE.2
  show ∃ a, (rowParsed remap policy i row).amount = some a ∧ 0 < a
  rw [rowParsed, if_pos ⟨hHE, hSK⟩]
  have hAN : ((amountCheck i row.amountRaw).1).isNone = false := by
    simp only [rowHasError, Bool.or_eq_false_iff] at hHE
    exact hHE.1.2
  rcases hA : (amountCheck i row.amountRaw).1 with _ | a
  · rw [hA] at hAN; cases hAN
  · exact ⟨a, rfl, amountCheck_some_pos hA⟩

theorem mem_dictUpsert_values {k : String} {v v' : RowResult}
    {l : List (String × RowResult)}
    (h : v' ∈ (dictUpsert k v l).map Prod.snd) :
    v' ∈ l.map Prod.snd ∨ v' = v := by
  induction l with
  | nil => simp [dictUpsert] at h; exact Or.inr h
  | cons p rest ih =>
    rcases p with ⟨k', w⟩
    by_cases hk : k' = k
    · simp only [dictUpsert, if_pos hk, List.map_cons, List.mem_cons] at h
      rcases h with h | h
      · exact Or.inr h
      · exact Or.inl (by simp only [List.map_cons, List.mem_cons]; exact Or.inr h)
    · simp only [dictUpsert, if_neg hk, List.map_cons, List.mem_cons] at h
      rcases h with h | h
      · exact Or.inl (by simp only [List.map_cons, List.mem_cons]; exact Or.inl h)
      · rcases ih h with h' | h'
        · exact Or.inl
            (by simp only [List.map_cons, List.mem_cons]; exact Or.inr h')
        · exact Or.inr h'

theorem foldl_lastRowWins_mem :
    ∀ (rows : List RowResult)
      (acc : List RowResult × List (String × RowResult)) (r' : RowResult),
      (r' ∈ (rows.foldl lastRowWinsStep acc).1 ∨
        r' ∈ (rows.foldl lastRowWinsStep acc).2.map Prod.snd) →
      (r' ∈ acc.1 ∨ r' ∈ acc.2.map Prod.snd) ∨ r' ∈ rows := by
  intro rows
  induction rows with
  | nil => intro acc r' h; exact Or.inl (by simpa using h)
  | cons x rest ih =>
    intro acc r' h
    rw [List.foldl_cons] at h
    rcases ih (lastRowWinsStep acc x) r' h with h' | h'
    · unfold lastRowWinsStep at h'
      rcases hk : importDedupKey true x with _ | k <;> rw [hk] at h'
      · rcases h' with h' | h'
        · rcases List.mem_append.mp h' with h'' | h''
          · exact Or.inl (Or.inl h'')
          · exact Or.inr (by simp_all)
        · exact Or.inl (Or.inr h')
      · rcases h' with h' | h'
        · exact Or.inl (Or.inl h')
        · rcases mem_dictUpsert_values h' with h'' | h''
          · exact Or.inl (Or.inr h'')
          · exact Or.inr (by simp [h''])
    · exact Or.inr (List.mem_cons_of_mem _ h')

theorem lastRowWins_subset {rows : List RowResult} {r' : RowResult}
    (h : r' ∈ lastRowWins rows) : r' ∈ rows := by
  unfold lastRowWins at h
  rcases foldl_lastRowWins_mem rows ([], []) r' (List.mem_append.mp h)
    with h' | h'
  · simp at h'
  · exact h'

theorem mem_dictMerge_values {k : String} {v v'' : RowResult}
    {l : List (String × RowResult)}
    (h : v'' ∈ (dictMerge k v l).map Prod.snd) :
    v'' ∈ l.map Prod.snd ∨ v'' = v ∨
      ∃ w, w ∈ l.map Prod.snd ∧ v'' = mergeAggregated w v := by
  induction l with
  | nil => simp [dictMerge] at h; exact Or.inr (Or.inl h)
  | cons p rest ih =>
    rcases p with ⟨k', w⟩
    by_cases hk : k' = k
    · simp only [dictMerge, if_pos hk, List.map_cons, List.mem_cons] at h
      rcases h with h | h
      · exact Or.inr (Or.inr ⟨w, by simp, h⟩)
      · exact Or.inl (by simp only [List.map_cons, List.mem_cons]; exact Or.inr h)
    · simp only [dictMerge, if_neg hk, List.map_cons, List.mem_cons] at h
      rcases h with h | h
      · exact Or.inl (by simp only [List.map_cons, List.mem_cons]; exact Or.inl h)
      · rcases ih h with h' | h' | ⟨w', hw', h'⟩
        · exact Or.inl
            (by simp only [List.map_cons, List.mem_cons]; exact Or.inr h')
        · exact Or.inr (Or.inl h')
        · exact Or.inr (Or.inr ⟨w',
            by simp only [List.map_cons, List.mem_cons]; exact Or.inr hw', h'⟩)

theorem foldl_aggregate_preserves (P : RowResult → Prop)
    (hP : ∀ b r, P b → P r → P (mergeAggregated b r)) :
    ∀ (rows : List RowResult)
      (acc : List RowResult × List (String × RowResult)),
      (∀ x ∈ acc.1, P x) → (∀ x ∈ acc.2.map Prod.snd, P x) →
      (∀ x ∈ rows, P x) →
      (∀ x ∈ (rows.foldl aggregateStep acc).1, P x) ∧
      (∀ x ∈ (rows.foldl aggregateStep acc).2.map Prod.snd, P x) := by
  intro rows
  induction rows with
  | nil => intro acc h1 h2 _; exact ⟨h1, h2⟩
  | cons x rest ih =>
    intro acc h1 h2 h3
    rw [List.foldl_cons]
    rcases hk : importDedupKey false x with _ | k
    · have hstep : aggregateStep acc x = (acc.1 ++ [x], acc.2) := by
        simp [aggregateStep, hk]
      rw [hstep]
      apply ih
      · intro y hy
        rcases List.mem_append.mp hy with h | h
        · exact h1 y h
        · have : y = x := by simpa using h
          exact this ▸ h3 x (List.mem_cons_self x rest)
      · exact h2
      · intro y hy; exact h3 y (List.mem_cons_of_mem _ hy)
    · have hstep : aggregateStep acc x = (acc.1, dictMerge k x acc.2) := by
        simp [aggregateStep, hk]
      rw [hstep]
      apply ih
      · exact h1
      · intro y hy
        rcases mem_dictMerge_values hy with h' | h' | ⟨w, hw, h'⟩
        · exact h2 y h'
        · exact h' ▸ h3 x (List.mem_cons_self x rest)
        · exact h' ▸ hP w x (h2 w hw) (h3 x (List.mem_cons_self x rest))
      · intro y hy; exact h3 y (List.mem_cons_of_mem _ hy)

theorem aggregate_preserves (P : RowResult → Prop)
    (hP : ∀ b r, P b → P r → P (mergeAggregated b r))
    {rows : List RowResult} (h : ∀ x ∈ rows, P x) :
    ∀ x ∈ aggregateByTransactionId rows, P x := by
  intro x hx
  unfold aggregateByTransactionId at hx
  rcases List.mem_append.mp hx with h' | h'
  · exact (foldl_aggregate_preserves P hP rows ([], []) (by simp) (by simp)
      h).1 x h'
  · exact (foldl_aggregate_preserves P hP rows ([], []) (by simp) (by simp)
      h).2 x h'

/-- C7: (1) every transaction row persisted by import — under any value-remap,
unknown-operation policy and dedup policy — carries a parsed amount that is
non-negative (in fact positive); (2) a row whose amount parses to a negative
number is imported with the absolute value and exactly one warning, never
rejected; (3) a row whose amount is missing or parses to zero gets an error
and is excluded from the import's ready set. -/
theorem imported_amount_invariant :
    (∀ (remap : List (String × String)) (uPolicy dPolicy : String)
        (rows : List RowInput),
      ∀ r ∈ importReadyRows remap uPolicy dPolicy rows,
        ∃ a, r.parsed.amount = some a ∧ 0 ≤ a) ∧
    (∀ (remap : List (String × String)) (policy : String) (row : RowInput)
        (op : String) (dt : Date) (a : ℚ),
      resolveOperation remap row.operationNorm row.paymentNorm = some op →
      row.paidAtNorm ≠ "" → row.operationNorm ≠ "" → row.amountNorm ≠ "" →
      row.transactionIdNorm = "" → row.orderIdNorm = "" →
      parse_date row.paidAtRaw = some dt →
      parse_float row.amountRaw = some a → a < 0 →
      (parseFeeValue row.fee1Raw).2 = false →
      (parseFeeValue row.fee2Raw).2 = false →
      (parseFeeValue row.fee3Raw).2 = false →
      (buildQualityReport remap policy [row]).map
          (fun r => (r.hasError, r.rowSkip, r.parsed.amount))
        = [(false, false, some (-a))] ∧
      qualityStats (buildQualityReport remap policy [row]) = ⟨1, 1, 0, 1, 0⟩) ∧
    (∀ (remap : List (String × String)) (policy : String) (row : RowInput)
        (op : String) (dt : Date),
      resolveOperation remap row.operationNorm row.paymentNorm = some op →
      row.paidAtNorm ≠ "" → row.operationNorm ≠ "" → row.amountNorm ≠ "" →
      row.transactionIdNorm = "" → row.orderIdNorm = "" →
      parse_date row.paidAtRaw = some dt →
      (parse_float row.amountRaw = none ∨ parse_float row.amountRaw = some 0) →
      (parseFeeValue row.fee1Raw).2 = false →
      (parseFeeValue row.fee2Raw).2 = false →
      (parseFeeValue row.fee3Raw).2 = false →
      readyRows (buildQualityReport remap policy [row]) = [] ∧
      qualityStats (buildQualityReport remap policy [row]) = ⟨1, 0, 1, 0, 0⟩) := by
  refine ⟨?_, ?_, ?_⟩
  · intro remap uPolicy dPolicy rows r hr
    have base := @ready_amount_pos remap uPolicy rows
    rw [importReadyRows, applyImportDedup] at hr
    split_ifs at hr with h1 h2
    · obtain ⟨a, ha, hpos⟩ := base r (lastRowWins_subset hr)
      exact ⟨a, ha, le_of_lt hpos⟩
    · obtain ⟨a, ha, hpos⟩ := aggregate_preserves
        (fun x => ∃ a, x.parsed.amount = some a ∧ 0 < a)
        (by
          rintro b r ⟨a1, hb, hb1⟩ ⟨a2, hr2, hr21⟩
          exact ⟨a1 + a2, by simp [mergeAggregated, hb, hr2], by linarith⟩)
        base r hr
      exact ⟨a, ha, le_of_lt hpos⟩
    · obtain ⟨a, ha, hpos⟩ := base r hr
      exact ⟨a, ha, le_of_lt hpos⟩
  · intro remap policy row op dt a hop hp hon han htx hor hdt hpf hneg hf1 hf2 hf3
    have hreq : requiredIssues 2 row = [] := by
      simp [requiredIssues, hp, hon, han]
    have hdup : dupCheck 2 [] row = ([], []) := by
      simp [dupCheck, htx, hor]
    have ham : amountCheck 2 row.amountRaw =
        (some (-a),
         [⟨.warning, 2, "amount", "Отрицательная сумма, используем модуль."⟩]) := by
      simp [amountCheck, hpf, ne_of_lt hneg, hneg]
    have hoc : operationCheck policy 2
        (resolveOperation remap row.operationNorm row.paymentNorm)
        = ([], false, false) := by rw [hop]; rfl
    have hhe : rowHasError remap policy 2 row = false := by
      simp [rowHasError, hreq, hdt, ham, hoc]
    have hsk : rowSkipFlag remap policy 2 row = false := by
      simp [rowSkipFlag, hoc]
    have hrep : buildQualityReport remap policy [row]
        = [(processTransactionRow remap policy 2 [] row).1] := rfl
    constructor
    · rw [hrep]
      simp only [List.map_cons, List.map_nil, processTransactionRow]
      rw [rowParsed, if_pos ⟨hhe, hsk⟩]
      simp [hhe, hsk, ham]
    · rw [hrep]
      simp only [qualityStats, countIssues, processTransactionRow]
      rw [hreq, hdup, ham, hoc]
      simp [hhe, hsk, hdt, feeIssues, hf1, hf2, hf3, countIssues]
  · intro remap policy row op dt hop hp hon han htx hor hdt hpf hf1 hf2 hf3
    have hreq : requiredIssues 2 row = [] := by
      simp [requiredIssues, hp, hon, han]
    have hdup : dupCheck 2 [] row = ([], []) := by
      simp [dupCheck, htx, hor]
    have ham : amountCheck 2 row.amountRaw =
        (none, [⟨.error, 2, "amount", "Сумма должна быть больше 0."⟩]) := by
      rcases hpf with hpf | hpf <;> simp [amountCheck, hpf]
    have hoc : operationCheck policy 2
        (resolveOperation remap row.operationNorm row.paymentNorm)
        = ([], false, false) := by rw [hop]; rfl
    have hhe : rowHasError remap policy 2 row = true := by
      simp [rowHasError, ham]
    have hsk : rowSkipFlag remap policy 2 row = false := by
      simp [rowSkipFlag, hoc]
    have hrep : buildQualityReport remap policy [row]
        = [(processTransactionRow remap policy 2 [] row).1] := rfl
    constructor
    · rw [hrep, readyRows]
      simp [processTransactionRow, rowIsQuarantined, hhe]
    · rw [hrep]
      simp only [qualityStats, countIssues, processTransactionRow]
      rw [hreq, hdup, ham, hoc]
      simp [hhe, hsk, hdt, feeIssues, hf1, hf2, hf3, countIssues]

/-- Witness for C7: the literal `-10` amount row is imported as `10` with one
warning. -/
theorem imported_amount_invariant_witness :
    (buildQualityReport [("sale", "sale")] "error"
        [{ paidAtRaw := "2024-01-01", paidAtNorm := "2024-01-01",
           operationNorm := "sale", amountRaw := "-10",
           amountNorm := "-10" }]).map
        (fun r => (r.hasError, r.rowSkip, r.parsed.amount))
      = [(false, false, some (-(-10 : ℚ)))] ∧
    qualityStats (buildQualityReport [("sale", "sale")] "error"
        [{ paidAtRaw := "2024-01-01", paidAtNorm := "2024-01-01",
           operationNorm := "sale", amountRaw := "-10",
           amountNorm := "-10" }]) = ⟨1, 1, 0, 1, 0⟩ :=
  imported_amount_invariant.2.1 [("sale", "sale")] "error"
    { paidAtRaw := "2024-01-01", paidAtNorm := "2024-01-01",
      operationNorm := "sale", amountRaw := "-10", amountNorm := "-10" }
    "sale" ⟨2024, 1, 1⟩ (-10)
    (by decide) (by decide) (by decide) (by decide) (by decide) (by decide)
    (by decide) (by decide) (by norm_num) (by decide) (by decide) (by decide)

/-- C4: operation type is resolved in priority order — (a) the mapping's
value-remap table, (b) the literals `sale`/`refund`, (c) keyword inference on
the normalized operation text with refund markers checked before sale
markers, (d) the same inference on the payment-method field; a row that still
resolves to nothing yields, under `unknown_operation_policy = ignore`,
exactly one warning, zero errors, the skip flag and `skipped_rows = 1`, and
under any other policy one error with `valid_rows` decremented to 0. -/
theorem operation_resolution_policy :
    (∀ (remap : List (String × String)) (opN payN v : String),
      normalizeOperationValue opN ≠ "" →
      assocLookup remap (normalizeOperationValue opN) = some v → v ≠ "" →
      resolveOperation remap opN payN = some v) ∧
    (∀ (remap : List (String × String)) (opN payN : String),
      (assocLookup remap (normalizeOperationValue opN)).getD "" = "" →
      (normalizeOperationValue opN = "sale" ∨
        normalizeOperationValue opN = "refund") →
      resolveOperation remap opN payN = some (normalizeOperationValue opN)) ∧
    (∀ (remap : List (String × String)) (opN payN r : String),
      (assocLookup remap (normalizeOperationValue opN)).getD "" = "" →
      normalizeOperationValue opN ≠ "sale" →
      normalizeOperationValue opN ≠ "refund" →
      inferOperationFromPaymentType (normalizeOperationValue opN) = some r →
      resolveOperation remap opN payN = some r) ∧
    (∀ s : String,
      (pyLower (pyStrip s.data)).isEmpty = false →
      (refundMarkers.any fun mk =>
        listContains mk.data (pyLower (pyStrip s.data))) = true →
      inferOperationFromPaymentType s = some "refund") ∧
    (∀ (remap : List (String × String)) (opN payN : String),
      resolveFromOperation remap (normalizeOperationValue opN) = none →
      resolveOperation remap opN payN =
        inferOperationFromPaymentType payN) ∧
    (∀ (remap : List (String × String)) (row : RowInput) (dt : Date) (a : ℚ),
      resolveOperation remap row.operationNorm row.paymentNorm = none →
      row.paidAtNorm ≠ "" → row.operationNorm ≠ "" → row.amountNorm ≠ "" →
      row.transactionIdNorm = "" → row.orderIdNorm = "" →
      parse_date row.paidAtRaw = some dt →
      parse_float row.amountRaw = some a → 0 < a →
      (parseFeeValue row.fee1Raw).2 = false →
      (parseFeeValue row.fee2Raw).2 = false →
      (parseFeeValue row.fee3Raw).2 = false →
      ((buildQualityReport remap "ignore" [row]).map (fun r => r.rowSkip)
          = [true] ∧
       qualityStats (buildQualityReport remap "ignore" [row])
          = ⟨1, 0, 0, 1, 1⟩) ∧
      (∀ policy : String, policy ≠ "ignore" →
       qualityStats (buildQualityReport remap policy [row])
          = ⟨1, 0, 1, 0, 0⟩)) := by
  refine ⟨?_, ?_, ?_, ?_, ?_, ?_⟩
  · intro remap opN payN v hne hlk hv
    simp [resolveOperation, resolveFromOperation, hne, hlk, hv]
  · intro remap opN payN hlk hlit
    rcases hlit with h | h <;> rw [h] at hlk <;>
      simp [resolveOperation, resolveFromOperation, h, hlk]
  · intro remap opN payN r hlk hs hr hinf
    by_cases hne : normalizeOperationValue opN = ""
    · rw [hne] at hinf
      cases (show inferOperationFromPaymentType "" = none from rfl) ▸ hinf
    · simp [resolveOperation, resolveFromOperation, hne, hlk, hs, hr, hinf]
  · intro s hne hm
    simp [inferOperationFromPaymentType, hne, hm]
  · intro remap opN payN h
    simp [resolveOperation, h]
  · intro remap row dt a hop hp hon han htx hor hdt hpf hpos hf1 hf2 hf3
    have hreq : requiredIssues 2 row = [] := by
      simp [requiredIssues, hp, hon, han]
    have hdup : dupCheck 2 [] row = ([], []) := by
      simp [dupCheck, htx, hor]
    have ham : amountCheck 2 row.amountRaw = (some a, []) := by
      simp [amountCheck, hpf, ne_of_gt hpos, not_lt.mpr (le_of_lt hpos)]
    constructor
    · have hoc : operationCheck "ignore" 2
          (resolveOperation remap row.operationNorm row.paymentNorm)
          = ([⟨.warning, 2, "operation_type",
               "Тип операции не распознан. Строка пропущена."⟩],
             false, true) := by rw [hop]; rfl
      have hhe : rowHasError remap "ignore" 2 row = false := by
        simp [rowHasError, hreq, hdt, ham, hoc]
      have hsk : rowSkipFlag remap "ignore" 2 row = true := by
        simp [rowSkipFlag, hoc]
      have hrep : buildQualityReport remap "ignore" [row]
          = [(processTransactionRow remap "ignore" 2 [] row).1] := rfl
      constructor
      · rw [hrep]
        simp [processTransactionRow, hsk]
      · rw [hrep]
        simp only [qualityStats, countIssues, processTransactionRow]
        rw [hreq, hdup, ham, hoc]
        simp [hhe, hsk, hdt, feeIssues, hf1, hf2, hf3, countIssues]
    · intro policy hpol
      have hoc : operationCheck policy 2
          (resolveOperation remap row.operationNorm row.paymentNorm)
          = ([⟨.error, 2, "operation_type",
               "Тип операции должен быть sale или refund."⟩],
             true, false) := by
        rw [hop]
        simp [operationCheck, hpol]
      have hhe : rowHasError remap policy 2 row = true := by
        simp [rowHasError, hoc]
      have hsk : rowSkipFlag remap policy 2 row = false := by
        simp [rowSkipFlag, hoc]
      have hrep : buildQualityReport remap policy [row]
          = [(processTransactionRow remap policy 2 [] row).1] := rfl
      rw [hrep]
      simp only [qualityStats, countIssues, processTransactionRow]
      rw [hreq, hdup, ham, hoc]
      simp [hhe, hsk, hdt, feeIssues, hf1, hf2, hf3, countIssues]

/-- Witness for C4 at a concrete unresolvable row (`charge`): the ignore
policy skips it with one warning, the error policy records one error. -/
theorem operation_resolution_policy_witness :
    ((buildQualityReport [("sale", "sale"), ("refund", "refund")] "ignore"
        [{ paidAtRaw := "2024-01-01", paidAtNorm := "2024-01-01",
           operationNorm := "charge", amountRaw := "1500",
           amountNorm := "1500" }]).map (fun r => r.rowSkip) = [true] ∧
     qualityStats (buildQualityReport [("sale", "sale"), ("refund", "refund")]
        "ignore"
        [{ paidAtRaw := "2024-01-01", paidAtNorm := "2024-01-01",
           operationNorm := "charge", amountRaw := "1500",
           amountNorm := "1500" }]) = ⟨1, 0, 0, 1, 1⟩) ∧
    (∀ policy : String, policy ≠ "ignore" →
     qualityStats (buildQualityReport [("sale", "sale"), ("refund", "refund")]
        policy
        [{ paidAtRaw := "2024-01-01", paidAtNorm := "2024-01-01",
           operationNorm := "charge", amountRaw := "1500",
           amountNorm := "1500" }]) = ⟨1, 0, 1, 0, 0⟩) :=
  operation_resolution_policy.2.2.2.2.2 [("sale", "sale"), ("refund", "refund")]
    { paidAtRaw := "2024-01-01", paidAtNorm := "2024-01-01",
      operationNorm := "charge", amountRaw := "1500", amountNorm := "1500" }
    ⟨2024, 1, 1⟩ 1500
    (by decide) (by decide) (by decide) (by decide) (by decide) (by decide)
    (by decide) (by decide) (by norm_num) (by decide) (by decide) (by decide)

/-! ## Dashboard delta -/

/-- C9: the period-over-period delta of a metric card equals
`(current - previous) / previous` and is null whenever the previous value is
absent or zero. -/
theorem delta_formula :
    (∀ c : ℚ, delta c none = none) ∧
    (∀ c : ℚ, delta c (some 0) = none) ∧
    (∀ c p : ℚ, p ≠ 0 → delta c (some p) = some ((c - p) / p)) :=
  ⟨fun _ => rfl, fun c => by simp [delta], fun c p hp => by simp [delta, hp]⟩

/-- Witness for C9 at current 3, previous 2. -/
theorem delta_formula_witness : delta 3 (some 2) = some ((3 - 2) / 2) :=
  delta_formula.2.2 3 2 (by norm_num)

/-! ## Metric availability -/

theorem availability_fold_satisfied (presence : List (String × Bool)) :
    ∀ (reqs : List String) (acc : List String × ℕ × Bool),
      (reqs.foldl (availabilityStep presence) acc).2.1
        = acc.2.1 + (reqs.filter fun r => presGet presence r).length := by
  intro reqs
  induction reqs with
  | nil => intro acc; simp
  | cons r rest ih =>
    intro acc
    rw [List.foldl_cons, ih (availabilityStep presence acc r)]
    unfold availabilityStep
    by_cases h1 : r = "order_id" ∧ presGet presence "order_id" = false
    · have hpr : presGet presence r = false := by rw [h1.1]; exact h1.2
      simp [h1, hpr, List.filter_cons]
    · by_cases h2 : presGet presence r
      · simp [h1, h2, List.filter_cons]
        omega
      · by_cases h3 : isComposite r <;>
          simp [h1, h2, h3, List.filter_cons]

theorem availability_fold_override (presence : List (String × Bool)) :
    ∀ (reqs : List String) (acc : List String × ℕ × Bool),
      (reqs.foldl (availabilityStep presence) acc).2.2
        = (acc.2.2 || reqs.any fun r =>
            r = "order_id" && !presGet presence "order_id" &&
              presGet presence "transaction_id") := by
  intro reqs
  induction reqs with
  | nil => intro acc; simp
  | cons r rest ih =>
    intro acc
    rw [List.foldl_cons, ih (availabilityStep presence acc r)]
    unfold availabilityStep
    by_cases h1 : r = "order_id" ∧ presGet presence "order_id" = false
    · simp [h1, List.any_cons, h1.1, h1.2, Bool.or_assoc]
    · have halt : (r = "order_id" && !presGet presence "order_id") = false := by
        by_cases hr : r = "order_id"
        · have : presGet presence "order_id" = true := by
            rcases hq : presGet presence "order_id"
            · exact absurd ⟨hr, hq⟩ h1
            · rfl
          simp [hr, this]
        · simp [hr]
      by_cases h2 : presGet presence r
      · simp [h1, h2, List.any_cons, halt]
      · by_cases h3 : isComposite r <;>
          simp [h1, h2, h3, List.any_cons, halt]

/-- C5: `evaluate_metric_availability` returns `available` exactly when every
requirement is present (so it never reports `available` with a requirement's
field absent); `unavailable` when none is present, except that a missing
`order_id` requirement with `transaction_id` present forces `partial`; and
`partial` whenever some but not all requirements are present. -/
theorem availability_statuses :
    ∀ (reqs : List String) (presence : List (String × Bool)),
      ((evaluateMetricAvailability reqs presence).1 = "available" ↔
        ∀ r ∈ reqs, presGet presence r = true) ∧
      (reqs ≠ [] → (∀ r ∈ reqs, presGet presence r = false) →
        ¬("order_id" ∈ reqs ∧ presGet presence "transaction_id" = true) →
        (evaluateMetricAvailability reqs presence).1 = "unavailable") ∧
      ((∃ r ∈ reqs, presGet presence r = true) →
        (∃ r ∈ reqs, presGet presence r = false) →
        (evaluateMetricAvailability reqs presence).1 = "partial") ∧
      ("order_id" ∈ reqs → presGet presence "order_id" = false →
        presGet presence "transaction_id" = true →
        (evaluateMetricAvailability reqs presence).1 = "partial") := by
  intro reqs presence
  by_cases hnil : reqs = []
  · subst hnil
    refine ⟨by simp [evaluateMetricAvailability], ?_, ?_, ?_⟩
    · intro h; exact absurd rfl h
    · rintro ⟨r, hr, _⟩; cases hr
    · intro h; cases h
  · have hlen : 0 < reqs.length := List.length_pos.mpr hnil
    have hEmpty : reqs.isEmpty = false := by
      cases reqs with
      | nil => exact absurd rfl hnil
      | cons a t => rfl
    have hsat := availability_fold_satisfied presence reqs ([], 0, false)
    have hov := availability_fold_override presence reqs ([], 0, false)
    simp only [Nat.zero_add] at hsat
    simp only [Bool.false_or] at hov
    refine ⟨?_, ?_, ?_, ?_⟩
    · constructor
      · intro h r hr
        by_contra hq
        have hq' : presGet presence r = false := by
          rcases hp : presGet presence r
          · rfl
          · exact absurd hp hq
        have hne : (reqs.filter fun r => presGet presence r).length
            ≠ reqs.length := by
          intro heq
          have := (List.filter_length_eq_length).mp heq r hr
          rw [hq'] at this
          cases this
        rw [evaluateMetricAvailability, if_neg (by simp [hEmpty])] at h
        rw [if_neg (by rw [hsat]; exact hne)] at h
        split at h <;> simp_all
      · intro h
        have hall : (reqs.filter fun r => presGet presence r).length
            = reqs.length := List.filter_length_eq_length.mpr h
        rw [evaluateMetricAvailability, if_neg (by simp [hEmpty]),
          if_pos (by rw [hsat]; exact hall)]
    · intro _ hnone hcomb
      have hzero : (reqs.filter fun r => presGet presence r).length = 0 := by
        rw [List.length_eq_zero]
        rw [List.filter_eq_nil_iff]
        intro r hr
        simp [hnone r hr]
      have hovf : (reqs.any fun r =>
          r = "order_id" && !presGet presence "order_id" &&
            presGet presence "transaction_id") = false := by
        rw [List.any_eq_false]
        intro r hr
        by_cases htx : presGet presence "transaction_id" = true
        · by_cases hro : r = "order_id"
          · exact absurd ⟨hro ▸ hr, htx⟩ hcomb
          · simp [hro]
        · have : presGet presence "transaction_id" = false := by
            rcases hq : presGet presence "transaction_id"
            · rfl
            · exact absurd hq htx
          simp [this]
      rw [evaluateMetricAvailability, if_neg (by simp [hEmpty]),
        if_neg (by rw [hsat, hzero]; omega),
        if_pos (by rw [hsat, hzero, hov, hovf]; exact ⟨rfl, rfl⟩)]
    · rintro ⟨rp, hrp, hrpT⟩ ⟨ra, hra, hraF⟩
      have hposs : 0 < (reqs.filter fun r => presGet presence r).length := by
        have hmemf : rp ∈ reqs.filter fun r => presGet presence r :=
          List.mem_filter.mpr ⟨hrp, by simp [hrpT]⟩
        exact List.length_pos.mpr (List.ne_nil_of_mem hmemf)
      have hne : (reqs.filter fun r => presGet presence r).length
          ≠ reqs.length := by
        intro heq
        have := (List.filter_length_eq_length).mp heq ra hra
        rw [hraF] at this
        cases this
      rw [evaluateMetricAvailability, if_neg (by simp [hEmpty]),
        if_neg (by rw [hsat]; exact hne),
        if_neg (by rw [hsat]; intro hc; have := hc.1; omega)]
    · intro hmem hoF htxT
      have hne : (reqs.filter fun r => presGet presence r).length
          ≠ reqs.length := by
        intro heq
        have := (List.filter_length_eq_length).mp heq _ hmem
        rw [hoF] at this
        cases this
      have hovt : (reqs.any fun r =>
          r = "order_id" && !presGet presence "order_id" &&
            presGet presence "transaction_id") = true := by
        rw [List.any_eq_true]
        exact ⟨"order_id", hmem, by simp [hoF, htxT]⟩
      rw [evaluateMetricAvailability, if_neg (by simp [hEmpty]),
        if_neg (by rw [hsat]; exact hne),
        if_neg (by rw [hov, hovt]; intro hc; exact Bool.noConfusion hc.2)]

/-- Witness for C5: a lone missing `order_id` requirement with
`transaction_id` present reports `partial`. -/
theorem availability_statuses_witness :
    (evaluateMetricAvailability ["order_id"]
      [("transaction_id", true)]).1 = "partial" :=
  (availability_statuses ["order_id"] [("transaction_id", true)]).2.2.2
    (by decide) (by decide) (by decide)

/-! ## Alias backfill -/

/-- C6: after `apply_alias(alias, target)` every fact row of the project
whose normalized product (resp. manager) name equalled the alias text has its
dimension FK set to the target id and its display name set to the target's
canonical name, and — whenever the canonical name differs from the alias —
no fact row of the project still shows the alias as its display name. -/
theorem apply_alias_backfill :
    ∀ (aliasRows : List AliasRow) (facts : List FactRow) (p : ℕ) (a : String)
      (product manager : DimEntity),
      ((applyProductAlias aliasRows facts p a product).2
        = facts.map (productBackfill p a product)) ∧
      (∀ f : FactRow, f.projectId = p → f.productNameNorm = some a →
        (productBackfill p a product f).productId = some product.id ∧
        (productBackfill p a product f).productNameNorm
          = some product.canonicalName) ∧
      (a ≠ product.canonicalName →
        ∀ f' ∈ (applyProductAlias aliasRows facts p a product).2,
          f'.projectId = p → f'.productNameNorm ≠ some a) ∧
      ((applyManagerAlias aliasRows facts p a manager).2
        = facts.map (managerBackfill p a manager)) ∧
      (∀ f : FactRow, f.projectId = p → f.managerNorm = some a →
        (managerBackfill p a manager f).managerId = some manager.id ∧
        (managerBackfill p a manager f).managerNorm
          = some manager.canonicalName) ∧
      (a ≠ manager.canonicalName →
        ∀ f' ∈ (applyManagerAlias aliasRows facts p a manager).2,
          f'.projectId = p → f'.managerNorm ≠ some a) := by
  intro aliasRows facts p a product manager
  refine ⟨rfl, ?_, ?_, rfl, ?_, ?_⟩
  · intro f h1 h2
    simp [productBackfill, h1, h2]
  · intro hne f' hf' hp' hq
    obtain ⟨f, _, rfl⟩ := List.mem_map.mp hf'
    unfold productBackfill at hp' hq
    split_ifs at hp' hq with hc
    · simp only [Option.some.injEq] at hq
      exact hne hq.symm
    · exact hc ⟨hp', hq⟩
  · intro f h1 h2
    simp [managerBackfill, h1, h2]
  · intro hne f' hf' hp' hq
    obtain ⟨f, _, rfl⟩ := List.mem_map.mp hf'
    unfold managerBackfill at hp' hq
    split_ifs at hp' hq with hc
    · simp only [Option.some.injEq] at hq
      exact hne hq.symm
    · exact hc ⟨hp', hq⟩

/-- Witness for C6: a concrete fact carrying alias `old phone` is repointed
to product 5 and renamed to `Phone`. -/
theorem apply_alias_backfill_witness :
    (productBackfill 1 "old phone" ⟨5, "Phone"⟩
        { projectId := 1, productNameNorm := some "old phone" }).productId
      = some 5 ∧
    (productBackfill 1 "old phone" ⟨5, "Phone"⟩
        { projectId := 1, productNameNorm := some "old phone" }).productNameNorm
      = some "Phone" :=
  (apply_alias_backfill [] [] 1 "old phone" ⟨5, "Phone"⟩ ⟨6, "Mgr"⟩).2.1
    { projectId := 1, productNameNorm := some "old phone" } rfl rfl

/-! ## Sale-only base metrics -/

theorem matched_filter_sale (p : ℕ) (fromD toD : Option Date)
    (filters : List (String × String)) (rows : List FactRow) :
    (rows.filter fun r =>
        matchesBase p fromD toD transactionDims filters r &&
          r.operationType = "sale")
      = ((rows.filter fun r => r.operationType = "sale").filter fun r =>
          matchesBase p fromD toD transactionDims filters r &&
            r.operationType = "sale") := by
  rw [List.filter_filter]
  apply List.filter_congr
  intro r _
  by_cases h : r.operationType = "sale" <;> simp [h]

/-- C10: the base metrics `fees_total`, `orders` and `buyers` are computed
only over `operation_type = 'sale'` rows — refund rows never contribute to
them — while refund-row fees do flow into the separate per-operation fee sum
`_fees_by_operation(..., 'refund')` that `net_profit_simple` subtracts. -/
theorem base_metrics_sale_only :
    ∀ (key : String) (rows : List FactRow) (p : ℕ) (fromD toD : Option Date)
      (filters : List (String × String)),
      key = "fees_total" ∨ key = "orders" ∨ key = "buyers" →
      (computeBaseMetric key rows p fromD toD filters
        = computeBaseMetric key
            (rows.filter fun r => r.operationType = "sale") p fromD toD
            filters) ∧
      (∀ r0 : FactRow, r0.operationType = "refund" →
        computeBaseMetric key (r0 :: rows) p fromD toD filters
          = computeBaseMetric key rows p fromD toD filters) ∧
      (∀ r0 : FactRow, r0.operationType = "refund" →
        matchesBase p fromD toD transactionDims filters r0 = true →
        feesByOperation (r0 :: rows) p fromD toD transactionDims filters
            "refund"
          = rowFees r0 +
            feesByOperation rows p fromD toD transactionDims filters
              "refund") := by
  intro key rows p fromD toD filters hkey
  have hops : (if key = "refunds" then "refund" else "sale") = "sale" := by
    rcases hkey with h | h | h <;> subst h <;> rfl
  refine ⟨?_, ?_, ?_⟩
  · rw [computeBaseMetric, computeBaseMetric, hops, matched_filter_sale]
  · intro r0 hr0
    rw [computeBaseMetric, computeBaseMetric, hops]
    have : (matchesBase p fromD toD transactionDims filters r0 &&
        r0.operationType = "sale") = false := by
      rw [hr0]
      simp
    rw [List.filter_cons_of_neg (by rw [this]; exact Bool.false_ne_true)]
  · intro r0 hr0 hmatch
    rw [feesByOperation, feesByOperation,
      List.filter_cons_of_pos (by rw [hmatch, hr0]; rfl)]
    simp

/-- Witness for C10 at the `orders` metric with a concrete refund row. -/
theorem base_metrics_sale_only_witness :
    computeBaseMetric "orders"
        [{ operationType := "refund", transactionId := some "t1",
           amount := 50 },
         { operationType := "sale", transactionId := some "t2",
           amount := 100 }] 1 none none []
      = computeBaseMetric "orders"
        [{ operationType := "sale", transactionId := some "t2",
           amount := 100 }] 1 none none [] :=
  (base_metrics_sale_only "orders"
    [{ operationType := "sale", transactionId := some "t2", amount := 100 }]
    1 none none [] (Or.inr (Or.inl rfl))).2.1
    { operationType := "refund", transactionId := some "t1", amount := 50 }
    rfl

/-! ## compute_metric and the dedup view -/

/-- C1 counterexample: with `dedup_policy = last_row_wins` and two stored
rows duplicating transaction `t1` (amounts 100 then 200, the second created
later), `compute_metric`'s gross-sales aggregation over the stored rows gives
300, while aggregating the policy-deduplicated effective rows gives 200: the
query path does not go through a dedup-aware view. -/
theorem compute_metric_ignores_dedup_policy :
    computeBaseMetric "gross_sales"
        [{ rowId := 1, createdAt := 0, transactionId := some "t1",
           amount := 100 },
         { rowId := 2, createdAt := 1, transactionId := some "t1",
           amount := 200 }] 1 none none [] = 300 ∧
    computeBaseMetric "gross_sales"
        (specEffectiveRows "last_row_wins"
          [{ rowId := 1, createdAt := 0, transactionId := some "t1",
             amount := 100 },
           { rowId := 2, createdAt := 1, transactionId := some "t1",
             amount := 200 }]) 1 none none [] = 200 ∧
    (300 : ℚ) ≠ 200 := by
  refine ⟨?_, ?_, by norm_num⟩
  · rw [show computeBaseMetric "gross_sales"
        [{ rowId := 1, createdAt := 0, transactionId := some "t1",
           amount := 100 },
         { rowId := 2, createdAt := 1, transactionId := some "t1",
           amount := 200 }] 1 none none [] = ((100 : ℚ) + (200 + 0)) from rfl]
    norm_num
  · rw [show computeBaseMetric "gross_sales"
        (specEffectiveRows "last_row_wins"
          [{ rowId := 1, createdAt := 0, transactionId := some "t1",
             amount := 100 },
           { rowId := 2, createdAt := 1, transactionId := some "t1",
             amount := 200 }]) 1 none none [] = ((200 : ℚ) + 0) from rfl]
    norm_num

/-- C1 amended: `compute_metric` aggregates the stored fact rows directly
(no dedup-aware subquery on the metric path), so it agrees with aggregation
over the policy's effective rows exactly in the `keep_all_rows` case, where
the view is the identity; the dedup policies act at import time instead. -/
theorem compute_metric_keep_all_view :
    ∀ (key : String) (rows : List FactRow) (p : ℕ) (fromD toD : Option Date)
      (filters : List (String × String)),
      computeBaseMetric key (specEffectiveRows "keep_all_rows" rows) p fromD
          toD filters
        = computeBaseMetric key rows p fromD toD filters := by
  intro key rows p fromD toD filters
  rw [specEffectiveRows, if_pos rfl]

end Analytics
